import Mathlib

/-!
# Verification of the waitlist worker (`src/worker.ts`)

A shallow embedding of the Hono worker that serves `POST /api/waitlist`:
body parsing, payload normalization, zod schema validation, honeypot bot
filtering, the per-IP per-UTC-day rate limiter, metadata enrichment, the
`ON CONFLICT(email)` upsert, and the `ip_hash` schema-migration fallback.

Modelling conventions:
* JavaScript values flowing through the worker are modelled by `JsValue`.
  JS numbers are modelled by `Int`: every numeric value the worker's
  observable behaviour depends on in the verified properties is an
  integer, so fractional doubles are outside the modelled input space
  and float formatting/rounding is not modelled.
* `undefined` is modelled by `Option.none` at use sites; JS `null` is
  the explicit `JsValue.null` constructor.
* Strings are sequences of Unicode scalar values; the verified
  properties do not depend on UTF-16 surrogate-pair length accounting.
* Timestamps are milliseconds since the Unix epoch (`Int`), the value of
  `Date.prototype.getTime`. The worker stores `created_at` as the fixed
  width `toISOString` rendering and compares such strings in SQL;
  lexicographic order of equal-width ISO strings coincides with the
  numeric order of their timestamps, so comparisons are modelled
  numerically.
* The D1 table is modelled as a list of rows; `JSON.stringify(metadata)`
  is modelled by storing the structured metadata value itself (the
  serialization is injective on it).
-/

/-- A JavaScript/JSON value as it flows through the worker.
Numbers are integer-valued (see module comment). -/
inductive JsValue where
  | str : String → JsValue
  | num : Int → JsValue
  | bool : Bool → JsValue
  | null : JsValue
  | arr : List JsValue → JsValue
  | obj : List (String × JsValue) → JsValue

/-- A JS key/value record (`Record<string, unknown>`), keys in insertion
order.  Records produced by `JSON.parse` have distinct keys. -/
abbrev RawRecord := List (String × JsValue)

/-- Property access `record[key]`: `none` models `undefined`. -/
def jsGet (r : RawRecord) (key : String) : Option JsValue :=
  r.lookup key

/-- `a ?? b`: take `a` unless it is `undefined` or `null`. -/
def jsCoalesce (a b : Option JsValue) : Option JsValue :=
  match a with
  | none => b
  | some .null => b
  | some v => some v

/-- `isRecord` (worker): `typeof value === 'object' && value !== null`.
In JS this is true for plain objects and for arrays. -/
def isRecord : Option JsValue → Bool
  | some (.obj _) => true
  | some (.arr _) => true
  | _ => false

/-- View a JS object (or array, whose indices become string keys, as in
JS) as a key/value record. -/
def asRecord : JsValue → RawRecord
  | .obj fields => fields
  | .arr elems => (elems.enum.map fun (i, v) => (toString i, v))
  | _ => []

/-- `String.prototype.trim`: strip leading and trailing whitespace. -/
def jsTrim (s : String) : String :=
  String.mk (((s.data.dropWhile Char.isWhitespace).reverse.dropWhile Char.isWhitespace).reverse)

/-- `String.prototype.slice(0, n)`. -/
def jsTake (n : Nat) (s : String) : String :=
  String.mk (s.data.take n)

/-- `String.prototype.toLowerCase` (ASCII range; the verified
properties use ASCII data). -/
def jsToLower (s : String) : String :=
  String.mk (s.data.map Char.toLower)

/-- Splitter body for `String.prototype.split`. -/
def jsSplitAux (sep : List Char) : Nat → List Char → List Char → List (List Char)
  | _, acc, [] => [acc.reverse]
  | 0, acc, cs => [acc.reverse ++ cs]
  | fuel + 1, acc, c :: rest =>
      if sep.isPrefixOf (c :: rest) then
        acc.reverse :: jsSplitAux sep fuel [] ((c :: rest).drop sep.length)
      else
        jsSplitAux sep fuel (c :: acc) rest

/-- `String.prototype.split(sep)` for a non-empty separator. -/
def jsSplit (s sep : String) : List String :=
  (jsSplitAux sep.data (s.data.length + 1) [] s.data).map String.mk

/-- `String.prototype.includes` (substring test). -/
def strIncludes (s sub : String) : Bool :=
  let rec go : List Char → Bool
    | [] => sub.data.isPrefixOf []
    | c :: rest => sub.data.isPrefixOf (c :: rest) || go rest
  go s.data

/-- Skip JSON insignificant whitespace. -/
def jsonSkipWs : List Char → List Char
  | c :: rest =>
      if c = ' ' ∨ c = '\t' ∨ c = '\n' ∨ c = '\r' then jsonSkipWs rest else c :: rest
  | [] => []

/-- Decode one JSON escape character (the character after a backslash).
Returns the decoded character(s), or `none` for an invalid escape.
`\uXXXX` escapes are handled by the caller. -/
def jsonEscapeChar : Char → Option Char
  | '"' => some '"'
  | '\\' => some '\\'
  | '/' => some '/'
  | 'b' => some (Char.ofNat 8)
  | 'f' => some (Char.ofNat 12)
  | 'n' => some '\n'
  | 'r' => some '\r'
  | 't' => some '\t'
  | _ => none

/-- Hex digit value. -/
def hexDigitVal (c : Char) : Option Nat :=
  if '0' ≤ c ∧ c ≤ '9' then some (c.toNat - 48)
  else if 'a' ≤ c ∧ c ≤ 'f' then some (c.toNat - 87)
  else if 'A' ≤ c ∧ c ≤ 'F' then some (c.toNat - 55)
  else none

/-- Parse the remainder of a JSON string literal (opening quote already
consumed), accumulating decoded characters in reverse. -/
def jsonParseStringAux : Nat → List Char → List Char → Option (String × List Char)
  | 0, _, _ => none
  | _ + 1, acc, '"' :: rest => some (String.mk acc.reverse, rest)
  | fuel + 1, acc, '\\' :: 'u' :: a :: b :: c :: d :: rest =>
      match hexDigitVal a, hexDigitVal b, hexDigitVal c, hexDigitVal d with
      | some va, some vb, some vc, some vd =>
          jsonParseStringAux fuel (Char.ofNat (((va * 16 + vb) * 16 + vc) * 16 + vd) :: acc) rest
      | _, _, _, _ => none
  | fuel + 1, acc, '\\' :: e :: rest =>
      match jsonEscapeChar e with
      | some c => jsonParseStringAux fuel (c :: acc) rest
      | none => none
  | fuel + 1, acc, c :: rest =>
      if c.toNat < 32 then none else jsonParseStringAux fuel (c :: acc) rest
  | _, _, [] => none

/-- Parse a JSON number restricted to the modelled (integer) numbers:
an optional minus sign and decimal digits with no redundant leading
zero.  Fractions and exponents are outside the modelled input space. -/
def jsonParseNumber (input : List Char) : Option (Int × List Char) :=
  let core : List Char → Option (Nat × List Char) := fun cs =>
    let digits := cs.takeWhile Char.isDigit
    let rest := cs.dropWhile Char.isDigit
    match digits with
    | [] => none
    | ['0'] => some (0, rest)
    | d :: _ =>
        if d = '0' then none
        else some (digits.foldl (fun acc c => acc * 10 + (c.toNat - 48)) 0, rest)
  match input with
  | '-' :: cs => (core cs).map fun (n, rest) => (-(n : Int), rest)
  | cs => (core cs).map fun (n, rest) => ((n : Int), rest)

mutual

/-- Parse one JSON value. -/
def jsonParseVal : Nat → List Char → Option (JsValue × List Char)
  | 0, _ => none
  | fuel + 1, input =>
      match jsonSkipWs input with
      | 't' :: 'r' :: 'u' :: 'e' :: rest => some (.bool true, rest)
      | 'f' :: 'a' :: 'l' :: 's' :: 'e' :: rest => some (.bool false, rest)
      | 'n' :: 'u' :: 'l' :: 'l' :: rest => some (.null, rest)
      | '"' :: rest =>
          (jsonParseStringAux (rest.length + 1) [] rest).map fun (s, r) => (.str s, r)
      | '[' :: rest =>
          (match jsonSkipWs rest with
           | ']' :: rest2 => some (.arr [], rest2)
           | _ => (jsonParseElems fuel rest).map fun (vs, r) => (.arr vs, r))
      | '{' :: rest =>
          (match jsonSkipWs rest with
           | '}' :: rest2 => some (.obj [], rest2)
           | _ => (jsonParseMembers fuel rest).map fun (ms, r) => (.obj ms, r))
      | rest => (jsonParseNumber rest).map fun (n, r) => (.num n, r)

/-- Parse the elements of a non-empty JSON array (opening bracket
consumed). -/
def jsonParseElems (fuel : Nat) (input : List Char) : Option (List JsValue × List Char) :=
  match fuel with
  | 0 => none
  | fuel + 1 =>
      match jsonParseVal fuel input with
      | none => none
      | some (v, rest) =>
          match jsonSkipWs rest with
          | ']' :: rest2 => some ([v], rest2)
          | ',' :: rest2 =>
              (jsonParseElems fuel rest2).map fun (vs, r) => (v :: vs, r)
          | _ => none

/-- Parse the members of a non-empty JSON object (opening brace
consumed). -/
def jsonParseMembers (fuel : Nat) (input : List Char) : Option (RawRecord × List Char) :=
  match fuel with
  | 0 => none
  | fuel + 1 =>
      match jsonSkipWs input with
      | '"' :: rest =>
          match jsonParseStringAux (rest.length + 1) [] rest with
          | none => none
          | some (key, rest2) =>
              match jsonSkipWs rest2 with
              | ':' :: rest3 =>
                  (match jsonParseVal fuel rest3 with
                   | none => none
                   | some (v, rest4) =>
                       match jsonSkipWs rest4 with
                       | '}' :: rest5 => some ([(key, v)], rest5)
                       | ',' :: rest5 =>
                           (jsonParseMembers fuel rest5).map fun (ms, r) => ((key, v) :: ms, r)
                       | _ => none)
              | _ => none
      | _ => none

end

/-- `JSON.parse` on a string (restricted to the modelled value space):
the whole input must be consumed.  `none` models a thrown parse error. -/
def jsJsonParse (s : String) : Option JsValue :=
  match jsonParseVal (2 * s.length + 8) s.data with
  | some (v, rest) => if jsonSkipWs rest = [] then some v else none
  | none => none

/-! ## UTC calendar arithmetic

The worker uses the JS `Date` built-ins `getUTCFullYear`, `getUTCMonth`,
`getUTCDate` and `Date.UTC`.  ECMAScript specifies these through the
proleptic Gregorian calendar over `Day(t) = floor(t / 86400000)`; the
calendar decomposition is modelled here with the Euclidean affine
method (Neri–Schneider), which agrees with the ECMAScript algorithms on
all days, and the recomposition `daysFromCivil` with the standard
March-based formula, linear in the day argument exactly as
ECMAScript's `MakeDay` is. -/

/-- A UTC calendar date: year, month `1..12`, day `1..31`. -/
structure CivilDate where
  year : Int
  month : Int
  day : Int
deriving DecidableEq

/-- Calendar date of day number `z` (days since 1970-01-01). -/
def civilFromDays (z : Int) : CivilDate :=
  let N := z + 719468
  let N1 := 4 * N + 3
  let C := N1 / 146097
  let NC := (N1 % 146097) / 4
  let N2 := 4 * NC + 3
  let Z := N2 / 1461
  let NY := (N2 % 1461) / 4
  let Y := 100 * C + Z
  let N3 := 5 * NY + 461
  let M := N3 / 153
  let D := (N3 % 153) / 5
  if M ≥ 13 then ⟨Y + 1, M - 12, D + 1⟩ else ⟨Y, M, D + 1⟩

/-- Day number of a calendar date; linear in `d`, so out-of-range day
values roll over exactly as `Date.UTC` normalizes them. -/
def daysFromCivil (y m d : Int) : Int :=
  let y1 := if m ≤ 2 then y - 1 else y
  let m1 := if m ≤ 2 then m + 12 else m
  365 * y1 + y1 / 4 - y1 / 100 + y1 / 400 + (153 * m1 - 457) / 5 + d - 1 - 719468

/-- Century split of the day count. -/
theorem centurySplit (N N1 C R1 NC G : Int) (h1 : N1 = 4 * N + 3) (hC : C = N1 / 146097)
    (hR : R1 = N1 % 146097) (hNC : NC = R1 / 4) (hG : G = (146097 * C) / 4) :
    N = G + NC ∧ 0 ≤ NC ∧ NC ≤ 36524 := by
  omega

/-- Year-of-century split of the day-of-century. -/
theorem yearSplit (NC N2 Z R2 NY G : Int) (h0 : 0 ≤ NC) (h1 : NC ≤ 36524)
    (h2 : N2 = 4 * NC + 3) (hZ : Z = N2 / 1461) (hR : R2 = N2 % 1461)
    (hNY : NY = R2 / 4) (hG : G = (1461 * Z) / 4) :
    NC = G + NY ∧ 0 ≤ Z ∧ Z ≤ 99 ∧ 0 ≤ NY ∧ NY ≤ 365 := by
  omega

/-- Month/day split of the (March-based) day-of-year. -/
theorem monthSplit (NY N3 M R3 D G : Int) (h0 : 0 ≤ NY) (h1 : NY ≤ 365)
    (h3 : N3 = 5 * NY + 461) (hM : M = N3 / 153) (hR : R3 = N3 % 153)
    (hD : D = R3 / 5) (hG : G = (153 * M - 457) / 5) :
    NY = G + D ∧ 3 ≤ M ∧ M ≤ 14 ∧ 0 ≤ D ∧ D ≤ 30 := by
  omega

/-- The year part of `daysFromCivil` recombines the century and
year-of-century contributions. -/
theorem yearRecomb (C Z Y G1 G2 : Int) (h0 : 0 ≤ Z) (h1 : Z ≤ 99) (hY : Y = 100 * C + Z)
    (hG1 : G1 = (146097 * C) / 4) (hG2 : G2 = (1461 * Z) / 4) :
    365 * Y + Y / 4 - Y / 100 + Y / 400 = G1 + G2 := by
  have e1 : 146097 * C / 4 = 36524 * C + C / 4 := by omega
  have e2 : 1461 * Z / 4 = 365 * Z + Z / 4 := by omega
  have e3 : Y / 4 = 25 * C + Z / 4 := by omega
  have e4 : Y / 100 = C := by omega
  have e5 : Y / 400 = C / 4 := by omega
  omega

/-- `daysFromCivil` applied to the components produced by
`civilFromDays` (pre-branch form) recovers the day number. -/
theorem daysFromCivil_parts (z C NC Z NY M D : Int)
    (hC : C = (4 * (z + 719468) + 3) / 146097)
    (hNC : NC = ((4 * (z + 719468) + 3) % 146097) / 4)
    (hZ : Z = (4 * NC + 3) / 1461)
    (hNY : NY = ((4 * NC + 3) % 1461) / 4)
    (hM : M = (5 * NY + 461) / 153)
    (hD : D = ((5 * NY + 461) % 153) / 5) :
    daysFromCivil (if M ≥ 13 then 100 * C + Z + 1 else 100 * C + Z)
      (if M ≥ 13 then M - 12 else M) (D + 1) = z := by
  obtain ⟨e1, c1, c2⟩ := centurySplit (z + 719468) _ C _ NC _ rfl hC rfl hNC rfl
  obtain ⟨e2, d1, d2, d3, d4⟩ := yearSplit NC _ Z _ NY _ c1 c2 rfl hZ rfl hNY rfl
  obtain ⟨e3, f1, f2, f3, f4⟩ := monthSplit NY _ M _ D _ d3 d4 rfl hM rfl hD rfl
  have e4 := yearRecomb C Z (100 * C + Z) _ _ d1 d2 rfl rfl rfl
  unfold daysFromCivil
  simp only []
  split_ifs with h13 hm2 hm2
  · have hy : (100 * C + Z + 1 - 1 : Int) = 100 * C + Z := by omega
    have hm : (M - 12 + 12 : Int) = M := by omega
    rw [hy, hm]
    omega
  · omega
  · omega
  · omega

/-- Round trip: recomposing the calendar date of a day number gives
back the day number. -/
theorem daysFromCivil_civilFromDays (z : Int) :
    daysFromCivil (civilFromDays z).year (civilFromDays z).month (civilFromDays z).day = z := by
  have h := daysFromCivil_parts z _ _ _ _ _ _ rfl rfl rfl rfl rfl rfl
  unfold civilFromDays
  simp only []
  split
  case isTrue hc => rw [if_pos hc, if_pos hc] at h; exact h
  case isFalse hc => rw [if_neg hc, if_neg hc] at h; exact h

/-- `daysFromCivil` is linear in the day argument (ECMAScript `MakeDay`
rollover). -/
theorem daysFromCivil_day_add_one (y m d : Int) :
    daysFromCivil y m (d + 1) = daysFromCivil y m d + 1 := by
  unfold daysFromCivil
  simp only []
  split_ifs <;> ring

/-- ECMAScript `Day(t) = floor(t / msPerDay)`. -/
def jsDay (t : Int) : Int := t / 86400000

/-- `Date.prototype.getUTCFullYear`. -/
def jsGetUTCFullYear (t : Int) : Int := (civilFromDays (jsDay t)).year

/-- `Date.prototype.getUTCMonth` (0-based as in JS). -/
def jsGetUTCMonth (t : Int) : Int := (civilFromDays (jsDay t)).month - 1

/-- `Date.prototype.getUTCDate`. -/
def jsGetUTCDate (t : Int) : Int := (civilFromDays (jsDay t)).day

/-- `Date.UTC(y, m, d, h, min, s, ms)` with 0-based month `m`, as epoch
milliseconds. -/
def jsDateUTC (y m d hh mi ss ms : Int) : Int :=
  daysFromCivil y (m + 1) d * 86400000 + hh * 3600000 + mi * 60000 + ss * 1000 + ms

/-- `startOfUtcDayIso` (worker):
`Date.UTC(getUTCFullYear, getUTCMonth, getUTCDate, 0, 0, 0, 0)`, as
epoch milliseconds (the ISO rendering is compared lexicographically in
SQL, which coincides with this numeric order). -/
def startOfUtcDayMs (t : Int) : Int :=
  jsDateUTC (jsGetUTCFullYear t) (jsGetUTCMonth t) (jsGetUTCDate t) 0 0 0 0

/-- `endOfUtcDayIso` (worker): same with `23:59:59.999`. -/
def endOfUtcDayMs (t : Int) : Int :=
  jsDateUTC (jsGetUTCFullYear t) (jsGetUTCMonth t) (jsGetUTCDate t) 23 59 59 999

/-- `Math.ceil(a / b)` for integers, `b > 0` (the worker's division is
exact on these operands). -/
def jsCeilDiv (a b : Int) : Int := -((-a) / b)

/-- `secondsUntilNextUtcDay` (worker):
`Math.max(1, Math.ceil((Date.UTC(y, m, d + 1) - t) / 1000))`. -/
def secondsUntilNextUtcDay (t : Int) : Int :=
  let nextDay := jsDateUTC (jsGetUTCFullYear t) (jsGetUTCMonth t) (jsGetUTCDate t + 1) 0 0 0 0
  max 1 (jsCeilDiv (nextDay - t) 1000)

/-- The worker's day-start recomposition equals the plain floor to a
multiple of `msPerDay`. -/
theorem startOfUtcDayMs_eq (t : Int) : startOfUtcDayMs t = (t / 86400000) * 86400000 := by
  unfold startOfUtcDayMs jsDateUTC jsGetUTCFullYear jsGetUTCMonth jsGetUTCDate jsDay
  have h : (civilFromDays (t / 86400000)).month - 1 + 1 = (civilFromDays (t / 86400000)).month := by
    ring
  rw [h, daysFromCivil_civilFromDays]
  ring

/-- The worker's next-day recomposition equals the next multiple of
`msPerDay`. -/
theorem nextUtcDayMs_eq (t : Int) :
    jsDateUTC (jsGetUTCFullYear t) (jsGetUTCMonth t) (jsGetUTCDate t + 1) 0 0 0 0 =
      (t / 86400000 + 1) * 86400000 := by
  unfold jsDateUTC jsGetUTCFullYear jsGetUTCMonth jsGetUTCDate jsDay
  have h : (civilFromDays (t / 86400000)).month - 1 + 1 = (civilFromDays (t / 86400000)).month := by
    ring
  rw [h, daysFromCivil_day_add_one, daysFromCivil_civilFromDays]
  ring

/-- The worker's day-end timestamp is the last millisecond of the day. -/
theorem endOfUtcDayMs_eq (t : Int) : endOfUtcDayMs t = (t / 86400000) * 86400000 + 86399999 := by
  unfold endOfUtcDayMs jsDateUTC
  have h0 := startOfUtcDayMs_eq t
  unfold startOfUtcDayMs jsDateUTC at h0
  omega

/-- `toOptionalString` (worker): a string input is trimmed, and an empty
trim result — or any non-string input — becomes `undefined`. -/
def toOptionalString : Option JsValue → Option String
  | some (.str s) =>
      let trimmed := jsTrim s
      if trimmed.length > 0 then some trimmed else none
  | _ => none

/-- `Number(string)` restricted to the modelled (integer) numbers: after
trimming, an optional sign followed by decimal digits.  Unparsable input
is `NaN`, modelled as `none`. -/
def jsStringToNumber (s : String) : Option Int :=
  let t := jsTrim s
  let core : List Char → Option Int := fun ds =>
    if ds ≠ [] ∧ ds.all Char.isDigit then
      some (ds.foldl (fun acc c => acc * 10 + (c.toNat - 48 : Int)) 0)
    else none
  match t.data with
  | '-' :: rest => (core rest).map Int.neg
  | '+' :: rest => core rest
  | ds => core ds

/-- `toOptionalNumber` (worker): finite numbers pass through; non-empty
strings are parsed with `Number`; everything else is `undefined`. -/
def toOptionalNumber : Option JsValue → Option Int
  | some (.num n) => some n
  | some (.str s) =>
      if (jsTrim s).length = 0 then none else jsStringToNumber s
  | _ => none

/-- `toOptionalInteger` (worker): `Math.trunc` after `toOptionalNumber`;
truncation is the identity on the modelled integer numbers. -/
def toOptionalInteger (v : Option JsValue) : Option Int :=
  toOptionalNumber v

/-- `toOptionalBoolean` (worker). -/
def toOptionalBoolean : Option JsValue → Option Bool
  | some (.bool b) => some b
  | some (.str s) =>
      let normalized := jsToLower (jsTrim s)
      if normalized = "true" ∨ normalized = "1" ∨ normalized = "yes" then some true
      else if normalized = "false" ∨ normalized = "0" ∨ normalized = "no" then some false
      else none
  | _ => none

/-- `Number.parseInt(value, 10)`: skip leading whitespace, optional
sign, then the longest decimal-digit prefix; no digits means `NaN`
(`none`). -/
def jsParseInt (s : String) : Option Int :=
  let t := s.data.dropWhile Char.isWhitespace
  let signed : Bool × List Char :=
    match t with
    | '-' :: rest => (true, rest)
    | '+' :: rest => (false, rest)
    | rest => (false, rest)
  let digits := signed.2.takeWhile Char.isDigit
  if digits = [] then none
  else
    let mag : Int := digits.foldl (fun acc c => acc * 10 + (c.toNat - 48 : Int)) 0
    some (if signed.1 then -mag else mag)

/-- `parseMetadata` (worker): an object passes through; a non-empty
string is parsed as JSON and kept only when it yields an object; any
other input — or a parse failure — is `undefined`. -/
def parseMetadata (value : Option JsValue) : Option RawRecord :=
  if isRecord value then
    match value with
    | some v => some (asRecord v)
    | none => none
  else
    match value with
    | some (.str s) =>
        if (jsTrim s).length = 0 then none
        else
          match jsJsonParse s with
          | some parsedValue =>
              if isRecord (some parsedValue) then some (asRecord parsedValue) else none
          | none => none
    | _ => none

/-- A thrown JS value: an `Error` instance observed through its
`message`, or any non-`Error` value. -/
inductive JsThrown where
  | errorObj : String → JsThrown
  | other : JsThrown
deriving DecidableEq

/-- A `FormData` entry value: a plain string, or a file (observed only
through its `name`). -/
inductive FormDataValue where
  | str : String → FormDataValue
  | file : String → FormDataValue

/-- The observable content of a raw request body:
* `contentType`: the `content-type` header (`none` models a missing
  header, coalesced to `""` by the worker);
* `jsonParse`: the outcome of `request.json()` — `none` models a
  rejected promise (malformed JSON), turned into `null` by the worker's
  `.catch`;
* `formData`: the outcome of `request.formData()` — the entries in
  order on success, or the thrown value when the promise rejects (a
  malformed form-encoded/multipart body); unlike `json()`, the worker
  attaches no `.catch` here, so that rejection propagates. -/
structure RawRequestBody where
  contentType : Option String
  jsonParse : Option JsValue
  formData : Except JsThrown (List (String × FormDataValue))

/-- JS object assignment `output[key] = value`: overwrite an existing
key in place, else append. -/
def jsSetKey {α : Type} (out : List (String × α)) (k : String) (v : α) :
    List (String × α) :=
  if out.any (fun p => p.1 = k) then
    out.map (fun p => if p.1 = k then (k, v) else p)
  else out ++ [(k, v)]

/-- `parseRequestBody` (worker): JSON bodies that fail to parse, or
parse to a JS non-object, degrade to the empty record (`json()` is
guarded with `.catch`), as does any content type other than JSON,
form-encoded, or multipart; a rejection of `formData()` on a
form-encoded/multipart body has no catch in the worker and propagates
(`Except.error`). -/
def parseRequestBody (request : RawRequestBody) : Except JsThrown RawRecord :=
  let contentType := request.contentType.getD ""
  if strIncludes contentType "application/json" then
    .ok
      (match request.jsonParse with
       | some jsonBody => if isRecord (some jsonBody) then asRecord jsonBody else []
       | none => [])
  else if strIncludes contentType "application/x-www-form-urlencoded" ∨
      strIncludes contentType "multipart/form-data" then
    match request.formData with
    | .error e => .error e
    | .ok formEntries =>
        .ok
          (formEntries.foldl
            (fun output kv =>
              jsSetKey output kv.1
                (JsValue.str (match kv.2 with | .str s => s | .file name => name)))
            [])
  else .ok []

/-- The canonical payload shape produced by `normalizePayload` and
consumed by `waitlistPayloadSchema`. -/
structure NormalizedPayload where
  email : Option String
  qualifier : Option String
  useCase : Option String
  website : Option String
  source : Option String
  landingPath : Option String
  utmSource : Option String
  utmMedium : Option String
  utmCampaign : Option String
  utmTerm : Option String
  utmContent : Option String
  locale : Option String
  timezone : Option String
  timezoneOffsetMinutes : Option Int
  screen : Option String
  viewport : Option String
  platform : Option String
  colorScheme : Option String
  reducedMotion : Option String
  cookieEnabled : Option Bool
  doNotTrack : Option String
  deviceMemory : Option Int
  hardwareConcurrency : Option Int
  maxTouchPoints : Option Int
  additionalFields : Option RawRecord
  metadata : Option RawRecord

/-- `normalizePayload` (worker): maps alias field names onto the
canonical shape with defensive coercions. -/
def normalizePayload (raw : RawRecord) : NormalizedPayload :=
  let metadata := parseMetadata (jsGet raw "metadata")
  { email := toOptionalString (jsGet raw "email")
    qualifier := toOptionalString
      (jsCoalesce (jsGet raw "qualifier") (jsCoalesce (jsGet raw "segment") (jsGet raw "role")))
    useCase := toOptionalString
      (jsCoalesce (jsGet raw "useCase") (jsCoalesce (jsGet raw "use_case")
        (jsCoalesce (jsGet raw "intent") (jsGet raw "description"))))
    website := toOptionalString (jsCoalesce (jsGet raw "website") (jsGet raw "company"))
    source := toOptionalString (jsCoalesce (jsGet raw "source") (jsGet raw "source_url"))
    landingPath := toOptionalString (jsCoalesce (jsGet raw "landingPath") (jsGet raw "landing_path"))
    utmSource := toOptionalString (jsCoalesce (jsGet raw "utmSource") (jsGet raw "utm_source"))
    utmMedium := toOptionalString (jsCoalesce (jsGet raw "utmMedium") (jsGet raw "utm_medium"))
    utmCampaign := toOptionalString (jsCoalesce (jsGet raw "utmCampaign") (jsGet raw "utm_campaign"))
    utmTerm := toOptionalString (jsCoalesce (jsGet raw "utmTerm") (jsGet raw "utm_term"))
    utmContent := toOptionalString (jsCoalesce (jsGet raw "utmContent") (jsGet raw "utm_content"))
    locale := toOptionalString (jsGet raw "locale")
    timezone := toOptionalString (jsGet raw "timezone")
    timezoneOffsetMinutes := toOptionalInteger
      (jsCoalesce (jsGet raw "timezoneOffsetMinutes") (jsGet raw "timezone_offset_minutes"))
    screen := toOptionalString (jsGet raw "screen")
    viewport := toOptionalString (jsGet raw "viewport")
    platform := toOptionalString (jsGet raw "platform")
    colorScheme := toOptionalString (jsCoalesce (jsGet raw "colorScheme") (jsGet raw "color_scheme"))
    reducedMotion := toOptionalString (jsCoalesce (jsGet raw "reducedMotion") (jsGet raw "reduced_motion"))
    cookieEnabled := toOptionalBoolean (jsCoalesce (jsGet raw "cookieEnabled") (jsGet raw "cookie_enabled"))
    doNotTrack := toOptionalString (jsCoalesce (jsGet raw "doNotTrack") (jsGet raw "do_not_track"))
    deviceMemory := toOptionalNumber (jsCoalesce (jsGet raw "deviceMemory") (jsGet raw "device_memory"))
    hardwareConcurrency := toOptionalInteger
      (jsCoalesce (jsGet raw "hardwareConcurrency") (jsGet raw "hardware_concurrency"))
    maxTouchPoints := toOptionalInteger
      (jsCoalesce (jsGet raw "maxTouchPoints") (jsGet raw "max_touch_points"))
    additionalFields := parseMetadata
      (jsCoalesce (jsGet raw "additionalFields")
        (jsCoalesce (jsGet raw "additional_fields") (jsGet raw "fields")))
    metadata := metadata }

/-- Character class `[A-Za-z0-9_'+\-.]` of the zod email regex's local
part. -/
def zodLocalChar (c : Char) : Bool :=
  c.isAlpha ∨ c.isDigit ∨ c = '_' ∨ c = '\'' ∨ c = '+' ∨ c = '-' ∨ c = '.'

/-- Character class `[A-Za-z0-9_+-]` closing the local part (no dot, no
apostrophe). -/
def zodLocalFinalChar (c : Char) : Bool :=
  c.isAlpha ∨ c.isDigit ∨ c = '_' ∨ c = '+' ∨ c = '-'

/-- One domain label `[A-Za-z0-9][A-Za-z0-9-]*`. -/
def zodDomainLabel (l : String) : Bool :=
  match l.data with
  | [] => false
  | c :: rest => (c.isAlpha ∨ c.isDigit) ∧ rest.all (fun d => d.isAlpha ∨ d.isDigit ∨ d = '-')

/-- Domain `([A-Za-z0-9][A-Za-z0-9-]*\.)+[A-Za-z]{2,}`: one or more
labels followed by an alphabetic TLD of length at least two. -/
def zodDomainCheck (domain : String) : Bool :=
  let labels := jsSplit domain "."
  match labels.getLast? with
  | none => false
  | some tld =>
      labels.length ≥ 2 ∧
      (tld.length ≥ 2 ∧ tld.data.all Char.isAlpha) ∧
      (labels.dropLast.all zodDomainLabel)

/-- `z.email()` (zod 4 default regex):
`^(?!\.)(?!.*\.\.)([A-Za-z0-9_'+\-.]*)[A-Za-z0-9_+-]@([A-Za-z0-9][A-Za-z0-9-]*\.)+[A-Za-z]{2,}$`.
Since neither side of the `@` admits an `@` character, a match has
exactly one `@`. -/
def zodEmailCheck (s : String) : Bool :=
  match jsSplit s "@" with
  | [localPart, domain] =>
      (!(localPart = "" : Bool)) &&
      localPart.data.all zodLocalChar &&
      (match localPart.data.getLast? with
       | some c => zodLocalFinalChar c
       | none => false) &&
      (match s.data.head? with
       | some c => !(c = '.' : Bool)
       | none => false) &&
      !(strIncludes s "..") &&
      zodDomainCheck domain
  | _ => false

/-- `z.url()` validity.  zod accepts exactly the strings the WHATWG
`URL` constructor accepts whose hostname passes zod's hostname regex;
the full WHATWG parsing algorithm is out of scope, so this is
approximated by an alphabetic scheme, `"://"`, and a non-empty
remainder.  No verified property depends on which URLs are accepted. -/
def zodUrlCheck (s : String) : Bool :=
  match jsSplit s "://" with
  | [scheme, rest] => scheme ≠ "" ∧ scheme.data.all Char.isAlpha ∧ rest ≠ ""
  | _ => false

/-- An optional `z.string().trim().max(n)` field. -/
def zodOptStrMax (n : Nat) : Option String → Bool
  | none => true
  | some s => (jsTrim s).length ≤ n

/-- An optional `z.number().int().min(lo).max(hi)` field (all modelled
numbers are integers). -/
def zodOptIntRange (lo hi : Int) : Option Int → Bool
  | none => true
  | some v => lo ≤ v ∧ v ≤ hi

/-- `waitlistPayloadSchema.safeParse(...).success`: the zod schema of
the worker, as a predicate on the normalized payload.  The schema's
`.trim()` transforms are the identity here because every string field
of `normalizePayload` is produced by `toOptionalString`, which already
trims. -/
def waitlistPayloadCheck (p : NormalizedPayload) : Bool :=
  (match p.email with
   | none => false
   | some e => zodEmailCheck (jsTrim e) && decide ((jsTrim e).length ≤ 320)) &&
  zodOptStrMax 80 p.qualifier &&
  zodOptStrMax 1200 p.useCase &&
  zodOptStrMax 200 p.website &&
  (match p.source with
   | none => true
   | some s => zodUrlCheck (jsTrim s) && decide ((jsTrim s).length ≤ 2048)) &&
  zodOptStrMax 512 p.landingPath &&
  zodOptStrMax 120 p.utmSource &&
  zodOptStrMax 120 p.utmMedium &&
  zodOptStrMax 120 p.utmCampaign &&
  zodOptStrMax 120 p.utmTerm &&
  zodOptStrMax 120 p.utmContent &&
  zodOptStrMax 32 p.locale &&
  zodOptStrMax 64 p.timezone &&
  zodOptIntRange (-840) 840 p.timezoneOffsetMinutes &&
  zodOptStrMax 32 p.screen &&
  zodOptStrMax 32 p.viewport &&
  zodOptStrMax 120 p.platform &&
  (match p.colorScheme with
   | none => true
   | some s => decide (s = "light" ∨ s = "dark" ∨ s = "no-preference")) &&
  (match p.reducedMotion with
   | none => true
   | some s => decide (s = "reduce" ∨ s = "no-preference")) &&
  zodOptStrMax 24 p.doNotTrack &&
  zodOptIntRange 0 128 p.deviceMemory &&
  zodOptIntRange 1 256 p.hardwareConcurrency &&
  zodOptIntRange 0 64 p.maxTouchPoints

/-! ## SHA-256 (`crypto.subtle.digest('SHA-256', ...)`)

The worker hashes the connecting IP with WebCrypto SHA-256 and renders
the digest in lowercase hex.  The algorithm (FIPS 180-4) is embedded
over `Nat` with explicit reduction mod `2^32`. -/

/-- Reduce to a 32-bit word. -/
def w32 (n : Nat) : Nat := n % 4294967296

/-- Right rotation of a 32-bit word. -/
def rotr32 (n x : Nat) : Nat := w32 ((x >>> n) ||| (x <<< (32 - n)))

/-- The 64 SHA-256 round constants. -/
def sha256K : List Nat :=
  [1116352408, 1899447441, 3049323471, 3921009573, 961987163, 1508970993, 2453635748, 2870763221,
   3624381080, 310598401, 607225278, 1426881987, 1925078388, 2162078206, 2614888103, 3248222580,
   3835390401, 4022224774, 264347078, 604807628, 770255983, 1249150122, 1555081692, 1996064986,
   2554220882, 2821834349, 2952996808, 3210313671, 3336571891, 3584528711, 113926993, 338241895,
   666307205, 773529912, 1294757372, 1396182291, 1695183700, 1986661051, 2177026350, 2456956037,
   2730485921, 2820302411, 3259730800, 3345764771, 3516065817, 3600352804, 4094571909, 275423344,
   430227734, 506948616, 659060556, 883997877, 958139571, 1322822218, 1537002063, 1747873779,
   1955562222, 2024104815, 2227730452, 2361852424, 2428436474, 2756734187, 3204031479, 3329325298]

/-- The initial SHA-256 hash state. -/
def sha256H0 : List Nat :=
  [1779033703, 3144134277, 1013904242, 2773480762, 1359893119, 2600822924, 528734635, 1541459225]

/-- Big-endian byte rendering of `n` in `k` bytes. -/
def bytesBE (k n : Nat) : List Nat :=
  (List.range k).map fun i => (n >>> (8 * (k - 1 - i))) % 256

/-- SHA-256 message padding: `0x80`, zeros to 56 mod 64, then the
64-bit big-endian bit length. -/
def sha256Pad (msg : List Nat) : List Nat :=
  let len := msg.length
  msg ++ [128] ++ List.replicate ((119 - len % 64) % 64) 0 ++ bytesBE 8 (8 * len)

/-- Group bytes into big-endian 32-bit words. -/
def bytesToWords : List Nat → List Nat
  | b0 :: b1 :: b2 :: b3 :: rest => (((b0 * 256 + b1) * 256 + b2) * 256 + b3) :: bytesToWords rest
  | _ => []

/-- Split into 64-byte blocks (`fuel` bounds the number of blocks). -/
def chunk64 : Nat → List Nat → List (List Nat)
  | 0, _ => []
  | _ + 1, [] => []
  | fuel + 1, l => l.take 64 :: chunk64 fuel (l.drop 64)

/-- Extend 16 message words to the 64-word schedule. -/
def sha256Schedule (w : Array Nat) : Array Nat :=
  (List.range 48).foldl
    (fun w i =>
      let j := i + 16
      let x15 := w.getD (j - 15) 0
      let x2 := w.getD (j - 2) 0
      let s0 := rotr32 7 x15 ^^^ rotr32 18 x15 ^^^ (x15 >>> 3)
      let s1 := rotr32 17 x2 ^^^ rotr32 19 x2 ^^^ (x2 >>> 10)
      w.push (w32 (w.getD (j - 16) 0 + s0 + w.getD (j - 7) 0 + s1)))
    w

/-- One SHA-256 compression round on the 8-word state. -/
def sha256Round (kw : Nat × Nat) : List Nat → List Nat
  | [a, b, c, d, e, f, g, h] =>
      let s1 := rotr32 6 e ^^^ rotr32 11 e ^^^ rotr32 25 e
      let ch := (e &&& f) ^^^ ((e ^^^ 4294967295) &&& g)
      let temp1 := w32 (h + s1 + ch + kw.1 + kw.2)
      let s0 := rotr32 2 a ^^^ rotr32 13 a ^^^ rotr32 22 a
      let maj := (a &&& b) ^^^ (a &&& c) ^^^ (b &&& c)
      let temp2 := w32 (s0 + maj)
      [w32 (temp1 + temp2), a, b, c, w32 (d + temp1), e, f, g]
  | s => s

/-- Process one 64-byte block. -/
def sha256Block (state : List Nat) (block : List Nat) : List Nat :=
  let ws := (sha256Schedule (Array.mk (bytesToWords block))).toList
  let final := (sha256K.zip ws).foldl (fun s kw => sha256Round kw s) state
  (state.zip final).map fun p => w32 (p.1 + p.2)

/-- SHA-256 digest of a byte sequence, as 32 bytes. -/
def sha256Bytes (msg : List Nat) : List Nat :=
  let padded := sha256Pad msg
  let state := (chunk64 (padded.length / 64 + 1) padded).foldl sha256Block sha256H0
  state.flatMap (bytesBE 4)

/-- UTF-8 encoding of one character (`TextEncoder`). -/
def utf8EncodeChar (c : Char) : List Nat :=
  let n := c.toNat
  if n < 128 then [n]
  else if n < 2048 then [192 ||| (n >>> 6), 128 ||| (n &&& 63)]
  else if n < 65536 then
    [224 ||| (n >>> 12), 128 ||| ((n >>> 6) &&& 63), 128 ||| (n &&& 63)]
  else
    [240 ||| (n >>> 18), 128 ||| ((n >>> 12) &&& 63), 128 ||| ((n >>> 6) &&& 63), 128 ||| (n &&& 63)]

/-- UTF-8 encoding of a string (`new TextEncoder().encode(...)`). -/
def utf8Encode (s : String) : List Nat := s.data.flatMap utf8EncodeChar

/-- Lowercase hex digit. -/
def hexChar (n : Nat) : Char := if n < 10 then Char.ofNat (48 + n) else Char.ofNat (87 + n)

/-- `byte.toString(16).padStart(2, '0')` for a byte value. -/
def byteToHex (b : Nat) : List Char := [hexChar (b / 16), hexChar (b % 16)]

/-- `sha256Hex` (worker): lowercase hex SHA-256 digest of the UTF-8
bytes of the input. -/
def sha256Hex (input : String) : String :=
  String.mk ((sha256Bytes (utf8Encode input)).flatMap byteToHex)

/-- `parsePositiveInt` (worker): the rate-limit configuration parser.
`none`/empty input (falsy), an unparsable value (`NaN`) or a parsed
value below 1 all fall back to the default. -/
def parsePositiveInt (value : Option String) (fallbackValue : Int) : Int :=
  match value with
  | none => fallbackValue
  | some s =>
      if s = "" then fallbackValue
      else
        match jsParseInt s with
        | none => fallbackValue
        | some parsedValue =>
            if parsedValue < 1 then fallbackValue else parsedValue

/-! ## The `ip_hash` schema-migration fallback (worker `try`/`catch`) -/

/-- `isIpHashConstraintError` (worker): an `Error` whose message
contains the D1 NOT NULL failure text for `waitlist_entries.ip_hash`. -/
def isIpHashConstraintError : JsThrown → Bool
  | .errorObj message =>
      strIncludes message "NOT NULL constraint failed: waitlist_entries.ip_hash"
  | .other => false

/-- A value bound to a prepared statement. -/
inductive SqlValue where
  | null : SqlValue
  | text : String → SqlValue
  | int : Int → SqlValue
deriving DecidableEq

/-- The store's behaviour, as the outcome of each of the two prepared
statements (`none` = the statement succeeds). -/
structure DbOutcomes where
  runPlain : Option JsThrown
  runWithHash : Option JsThrown

/-- What the write block did: the final outcome (`none` = the handler
proceeds to the 201 response; `some e` = `e` propagates out of the
handler), and the bound values of each statement executed, in order. -/
structure DbWriteTrace where
  result : Option JsThrown
  attempts : List (List SqlValue)
deriving DecidableEq

/-- `upsertValuesWithIpHash` (worker): the same bound values with the
SHA-256 hex of the connecting IP spliced in after the first five. -/
def upsertValuesWithIpHash (upsertValues : List SqlValue) (ipAddress : String) : List SqlValue :=
  upsertValues.take 5 ++ [SqlValue.text (sha256Hex ipAddress)] ++ upsertValues.drop 5

/-- The worker's `try`/`catch` around the upsert: run the plain
statement; on the specific `ip_hash` NOT NULL failure, run the
48-column statement once with the hashed IP; any other thrown value is
rethrown, and a failure of the retry also propagates. -/
def runUpsertWithFallback (db : DbOutcomes) (upsertValues : List SqlValue)
    (ipAddress : String) : DbWriteTrace :=
  match db.runPlain with
  | none => ⟨none, [upsertValues]⟩
  | some error =>
      if isIpHashConstraintError error then
        ⟨db.runWithHash, [upsertValues, upsertValuesWithIpHash upsertValues ipAddress]⟩
      else
        ⟨some error, [upsertValues]⟩

/-! ## Sanitization of `additionalFields` -/

/-- Loop body of `sanitizeLooseRecord` (worker): at most 24 kept
entries, keys trimmed and cut to 64 chars, values stringified (strings
and numbers only) through `toOptionalString` and cut to 1200 chars;
entries with an empty key or no stringifiable non-empty value are
skipped. -/
def sanitizeGo : List (String × JsValue) → List (String × String) → Nat → List (String × String)
  | [], output, _ => output
  | (rawKey, rawValue) :: rest, output, count =>
      if count ≥ 24 then output
      else
        let key := jsTake 64 (jsTrim rawKey)
        if key = "" then sanitizeGo rest output count
        else
          let valueString := toOptionalString
            (match rawValue with
             | .str s => some (.str s)
             | .num n => some (.str (toString n))
             | _ => none)
          match valueString with
          | none => sanitizeGo rest output count
          | some v => sanitizeGo rest (jsSetKey output key (jsTake 1200 v)) (count + 1)

/-- `sanitizeLooseRecord` (worker). -/
def sanitizeLooseRecord : Option RawRecord → List (String × String)
  | none => []
  | some value => sanitizeGo value [] 0

/-- JS `delete record[key]`. -/
def jsDeleteKey {α : Type} (m : List (String × α)) (k : String) : List (String × α) :=
  m.filter fun p => p.1 ≠ k

/-! ## Request context, headers and the connecting IP -/

/-- `Headers.get` (header names modelled lowercase, as the lookup is
case-insensitive). -/
def headerGet (headers : List (String × String)) (name : String) : Option String :=
  headers.lookup name

/-- Fallback half of `getConnectingIp`: first hop of
`x-forwarded-for`, else the literal `"unknown"`. -/
def getForwardedIp (headers : List (String × String)) : String :=
  match headerGet headers "x-forwarded-for" with
  | some forwardedFor =>
      if forwardedFor.length > 0 then jsTrim ((jsSplit forwardedFor ",").headD "")
      else "unknown"
  | none => "unknown"

/-- `getConnectingIp` (worker): prefer `cf-connecting-ip`, else the
first hop of `x-forwarded-for`, else `"unknown"`. -/
def getConnectingIp (headers : List (String × String)) : String :=
  match headerGet headers "cf-connecting-ip" with
  | some connectingIp =>
      if connectingIp.length > 0 then connectingIp else getForwardedIp headers
  | none => getForwardedIp headers

/-- The header allow-list captured into the metadata blob. -/
def metadataHeaderAllowList : List String :=
  ["accept", "accept-encoding", "accept-language", "origin", "host", "priority",
   "sec-ch-ua", "sec-ch-ua-mobile", "sec-ch-ua-platform", "sec-fetch-dest",
   "sec-fetch-mode", "sec-fetch-site", "user-agent", "x-forwarded-proto"]

/-- `pickHeaders` (worker): the allowed headers that are present and
non-empty, in allow-list order. -/
def pickHeaders (headers : List (String × String)) (allowed : List String) :
    List (String × String) :=
  allowed.foldl
    (fun output key =>
      match headerGet headers key with
      | some value => if value.length > 0 then output ++ [(key, value)] else output
      | none => output)
    []

/-- The edge-network snapshot (`getCfSnapshot`'s result; its extraction
from `request.cf` is not exercised by the verified properties, so the
snapshot enters the model already extracted).  Numeric fields are
integer-valued (module comment). -/
structure CfSnapshot where
  country : Option String
  region : Option String
  regionCode : Option String
  city : Option String
  postalCode : Option String
  continent : Option String
  timezone : Option String
  colo : Option String
  asn : Option Int
  asOrganization : Option String
  latitude : Option Int
  longitude : Option Int
  metroCode : Option String
  botScore : Option Int
  tlsVersion : Option String
  httpProtocol : Option String
deriving DecidableEq

/-- The observable request context for `POST /api/waitlist`. -/
structure ReqCtx where
  urlFull : String
  urlPath : String
  urlQuery : List (String × String)
  method : String
  headers : List (String × String)
  cf : CfSnapshot
  body : RawRequestBody

/-- Worker environment bindings (the rate-limit configuration string). -/
structure Env where
  waitlistRateLimitPerDay : Option String

/-! ## The metadata blob and the stored row -/

/-- `metadata.request` (worker). -/
structure RequestMeta where
  method : String
  path : String
  query : List (String × String)
  source : String
  cfRay : Option String

/-- `metadata.client` (worker). -/
structure ClientMeta where
  locale : Option String
  timezone : Option String
  timezoneOffsetMinutes : Option Int
  screen : Option String
  viewport : Option String
  platform : Option String
  colorScheme : Option String
  reducedMotion : Option String
  cookieEnabled : Option Bool
  doNotTrack : Option String
  deviceMemory : Option Int
  hardwareConcurrency : Option Int
  maxTouchPoints : Option Int
  referrer : Option String

/-- The metadata value serialized into `metadata_json`
(`JSON.stringify` modelled by the structured value itself). -/
structure Metadata where
  provided : RawRecord
  additionalFields : List (String × String)
  request : RequestMeta
  client : ClientMeta
  headers : List (String × String)
  cloudflare : CfSnapshot

/-- A row of `waitlist_entries` (the `id` rowid column is not
modelled; timestamps are epoch milliseconds of their ISO renderings). -/
structure Row where
  email : String
  qualifier : Option String
  use_case : Option String
  source_url : Option String
  landing_path : Option String
  ip_hash : Option String
  ip_address : Option String
  user_agent : Option String
  referrer : Option String
  accept_language : Option String
  origin : Option String
  host : Option String
  screen_size : Option String
  viewport_size : Option String
  platform : Option String
  timezone : Option String
  timezone_offset_minutes : Option Int
  color_scheme : Option String
  reduced_motion : Option String
  cookie_enabled : Option Int
  do_not_track : Option String
  device_memory_gb : Option Int
  hardware_concurrency : Option Int
  max_touch_points : Option Int
  cf_country : Option String
  cf_region : Option String
  cf_region_code : Option String
  cf_city : Option String
  cf_postal_code : Option String
  cf_continent : Option String
  cf_timezone : Option String
  cf_colo : Option String
  cf_asn : Option Int
  cf_as_organization : Option String
  cf_latitude : Option Int
  cf_longitude : Option Int
  cf_metro_code : Option String
  cf_bot_score : Option Int
  cf_tls_version : Option String
  cf_http_protocol : Option String
  utm_source : Option String
  utm_medium : Option String
  utm_campaign : Option String
  utm_term : Option String
  utm_content : Option String
  metadata_json : Metadata
  created_at : Int
  updated_at : Int

/-- The metadata object assembled by the handler (worker lines
132–178): sanitized additional fields with the dedicated use-case key
deleted, request facts, the client snapshot, allow-listed headers and
the edge snapshot. -/
def buildMetadata (req : ReqCtx) (payload : NormalizedPayload) : Metadata :=
  let additionalFields := jsDeleteKey (sanitizeLooseRecord payload.additionalFields) "useCase"
  { provided := payload.metadata.getD []
    additionalFields := additionalFields
    request :=
      { method := req.method
        path := req.urlPath
        query := req.urlQuery
        source := payload.source.getD req.urlFull
        cfRay := headerGet req.headers "cf-ray" }
    client :=
      { locale := payload.locale
        timezone := payload.timezone
        timezoneOffsetMinutes := payload.timezoneOffsetMinutes
        screen := payload.screen
        viewport := payload.viewport
        platform := payload.platform
        colorScheme := payload.colorScheme
        reducedMotion := payload.reducedMotion
        cookieEnabled := payload.cookieEnabled
        doNotTrack := payload.doNotTrack
        deviceMemory := payload.deviceMemory
        hardwareConcurrency := payload.hardwareConcurrency
        maxTouchPoints := payload.maxTouchPoints
        referrer := headerGet req.headers "referer" }
    headers := pickHeaders req.headers metadataHeaderAllowList
    cloudflare := req.cf }

/-- The row bound to the plain insert statement (worker lines 180–228):
`email` already lowercased, `created_at = updated_at = now`, and no
`ip_hash` (the plain statement omits that column, so it stores NULL on
insert). -/
def mkRow (email : String) (req : ReqCtx) (payload : NormalizedPayload) (now : Int)
    (ipAddress : String) : Row :=
  { email := email
    qualifier := payload.qualifier
    use_case := payload.useCase
    source_url := some (payload.source.getD req.urlFull)
    landing_path := some (payload.landingPath.getD req.urlPath)
    ip_hash := none
    ip_address := some ipAddress
    user_agent := headerGet req.headers "user-agent"
    referrer := headerGet req.headers "referer"
    accept_language := headerGet req.headers "accept-language"
    origin := headerGet req.headers "origin"
    host := headerGet req.headers "host"
    screen_size := payload.screen
    viewport_size := payload.viewport
    platform := payload.platform
    timezone := payload.timezone
    timezone_offset_minutes := payload.timezoneOffsetMinutes
    color_scheme := payload.colorScheme
    reduced_motion := payload.reducedMotion
    cookie_enabled :=
      match payload.cookieEnabled with
      | none => none
      | some true => some 1
      | some false => some 0
    do_not_track := payload.doNotTrack
    device_memory_gb := payload.deviceMemory
    hardware_concurrency := payload.hardwareConcurrency
    max_touch_points := payload.maxTouchPoints
    cf_country := req.cf.country
    cf_region := req.cf.region
    cf_region_code := req.cf.regionCode
    cf_city := req.cf.city
    cf_postal_code := req.cf.postalCode
    cf_continent := req.cf.continent
    cf_timezone := req.cf.timezone
    cf_colo := req.cf.colo
    cf_asn := req.cf.asn
    cf_as_organization := req.cf.asOrganization
    cf_latitude := req.cf.latitude
    cf_longitude := req.cf.longitude
    cf_metro_code := req.cf.metroCode
    cf_bot_score := req.cf.botScore
    cf_tls_version := req.cf.tlsVersion
    cf_http_protocol := req.cf.httpProtocol
    utm_source := payload.utmSource
    utm_medium := payload.utmMedium
    utm_campaign := payload.utmCampaign
    utm_term := payload.utmTerm
    utm_content := payload.utmContent
    metadata_json := buildMetadata req payload
    created_at := now
    updated_at := now }

/-- The plain `INSERT ... ON CONFLICT(email) DO UPDATE` statement over
the store: on a conflicting email, every column in the statement's
`SET` list — all mutable columns and `updated_at` — takes the excluded
row's value, while `created_at` and `ip_hash` (absent from both the
column list and the `SET` list) keep their stored values. -/
def applyUpsert (store : List Row) (row : Row) : List Row :=
  if store.any (fun old => old.email = row.email) then
    store.map fun old =>
      if old.email = row.email then
        { row with created_at := old.created_at, ip_hash := old.ip_hash }
      else old
  else store ++ [row]

/-- The rate-limit `SELECT COUNT(*)` (worker lines 102–110): rows with
this `ip_address` and `created_at` within the inclusive window. -/
def rateLimitCount (store : List Row) (ipAddress : String) (dayStart dayEnd : Int) : Nat :=
  (store.filter fun row =>
    decide (row.ip_address = some ipAddress) &&
    decide (dayStart ≤ row.created_at) && decide (row.created_at ≤ dayEnd)).length

/-! ## The handler -/

/-- The JSON envelope and status of a handler response. -/
structure HttpResponse where
  status : Nat
  ok : Bool
  error : Option String
  message : String
  retryAfter : Option Int
deriving DecidableEq

/-- 400 `invalid_payload`. -/
def invalidPayloadResponse : HttpResponse :=
  ⟨400, false, some "invalid_payload", "Please submit a valid email address.", none⟩

/-- 200 fake success for honeypot submissions. -/
def botSuccessResponse : HttpResponse :=
  ⟨200, true, none, "Thanks for your interest.", none⟩

/-- 429 `rate_limited` with `Retry-After`. -/
def rateLimitedResponse (retryAfterSeconds : Int) : HttpResponse :=
  ⟨429, false, some "rate_limited", "Rate limit reached. Please try again tomorrow.", some retryAfterSeconds⟩

/-- 201 for a stored submission. -/
def createdResponse : HttpResponse :=
  ⟨201, true, none, "You are on the waitlist.", none⟩

/-- The handler from schema validation on (worker lines 75–473), over
an already-normalized payload: validate, filter bots, rate-limit, then
upsert.  The store is the D1 table; the write path models the plain
statement succeeding (the `ip_hash` fallback block is modelled
separately by `runUpsertWithFallback`). -/
def handleParsed (env : Env) (req : ReqCtx) (now : Int) (store : List Row)
    (normalizedPayload : NormalizedPayload) : HttpResponse × List Row :=
  match normalizedPayload.email, waitlistPayloadCheck normalizedPayload with
  | some email, true =>
      if (match normalizedPayload.website with
          | some w => decide (w.length > 0)
          | none => false) then
        (botSuccessResponse, store)
      else
        let rateLimitPerDay := parsePositiveInt env.waitlistRateLimitPerDay 10
        let dayStart := startOfUtcDayMs now
        let dayEnd := endOfUtcDayMs now
        let ipAddress := getConnectingIp req.headers
        let submissionCount := rateLimitCount store ipAddress dayStart dayEnd
        if (submissionCount : Int) ≥ rateLimitPerDay then
          (rateLimitedResponse (secondsUntilNextUtcDay now), store)
        else
          (createdResponse, applyUpsert store (mkRow (jsToLower email) req normalizedPayload now ipAddress))
  | _, _ => (invalidPayloadResponse, store)

/-- `POST /api/waitlist` end to end: parse the body, normalize, then
`handleParsed`; a body-parser rejection (`formData()` on a malformed
form body) propagates out of the handler uncaught. -/
def postWaitlist (env : Env) (req : ReqCtx) (now : Int) (store : List Row) :
    Except JsThrown (HttpResponse × List Row) :=
  match parseRequestBody req.body with
  | .error e => .error e
  | .ok rawPayload => .ok (handleParsed env req now store (normalizePayload rawPayload))


/-! ## Sanity checks of the embedding on concrete values -/

/-- FIPS 180-4 test vector for the embedded SHA-256. -/
theorem sha256Hex_abc :
    sha256Hex "abc" = "ba7816bf8f01cfea414140de5dae2223b00361a396177a9cb410ff61f20015ad" := by
  decide

/-- Calendar sanity: the epoch day and a leap day. -/
theorem civilFromDays_epoch :
    civilFromDays 0 = ⟨1970, 1, 1⟩ ∧ civilFromDays 19782 = ⟨2024, 2, 29⟩ ∧
      daysFromCivil 2024 2 29 = 19782 := by
  refine ⟨by decide, by decide, by decide⟩

/-! ## Concrete fixtures used by the witnesses -/

/-- An empty edge snapshot. -/
def wCf : CfSnapshot :=
  ⟨none, none, none, none, none, none, none, none, none, none, none, none, none, none, none, none⟩

/-- A JSON body carrying an email and additional fields. -/
def wBody : RawRequestBody :=
  { contentType := some "application/json"
    jsonParse := some (.obj [("email", .str "A@b.com"),
      ("additionalFields", .obj [("teamSize", .str "3-10"), ("useCase", .str "acme")])])
    formData := .ok [] }

/-- A request context with a connecting IP. -/
def wReq : ReqCtx :=
  { urlFull := "https://example.com/api/waitlist"
    urlPath := "/api/waitlist"
    urlQuery := []
    method := "POST"
    headers := [("cf-connecting-ip", "203.0.113.7"), ("user-agent", "UA")]
    cf := wCf
    body := wBody }

/-- An environment with no rate-limit configuration (default 10). -/
def wEnv : Env := ⟨none⟩

/-- The normalized payload of `wBody`. -/
def wNp : NormalizedPayload :=
  normalizePayload ((parseRequestBody wBody).toOption.getD [])

/-- A normalized payload with a filled honeypot field. -/
def wBotNp : NormalizedPayload :=
  normalizePayload [("email", .str "a@b.com"), ("website", .str "spam")]

/-! ## Claim theorems -/

/-- C3: for every payload that passes validation and has a non-empty
honeypot (`website`) field, the handler answers HTTP 200 with a
success-shaped body and the generic thanks message, the store is
unchanged (no row inserted or updated), and — the filter running before
the rate limiter — no rate-limit count over any window is affected. -/
theorem honeypot_fake_success_no_write (env : Env) (req : ReqCtx) (now : Int)
    (store : List Row) (np : NormalizedPayload) (e w : String)
    (hemail : np.email = some e) (hcheck : waitlistPayloadCheck np = true)
    (hweb : np.website = some w) (hw : w.length > 0) :
    handleParsed env req now store np = (botSuccessResponse, store) ∧
    botSuccessResponse.status = 200 ∧ botSuccessResponse.ok = true ∧
    botSuccessResponse.message = "Thanks for your interest." ∧
    (∀ ip dayS dayE, rateLimitCount (handleParsed env req now store np).2 ip dayS dayE =
      rateLimitCount store ip dayS dayE) := by
  have hmain : handleParsed env req now store np = (botSuccessResponse, store) := by
    simp only [handleParsed, hemail, hcheck, hweb]
    simp [hw]
  refine ⟨hmain, rfl, rfl, rfl, ?_⟩
  intro ip dayS dayE
  rw [hmain]

/-- C3 witness: a concrete bot submission. -/
theorem honeypot_fake_success_no_write_witness :
    handleParsed wEnv wReq 1700000000000 [] wBotNp = (botSuccessResponse, []) ∧
      botSuccessResponse.status = 200 :=
  ⟨(honeypot_fake_success_no_write wEnv wReq 1700000000000 [] wBotNp "a@b.com" "spam"
      rfl rfl rfl (by decide)).1, rfl⟩

/-- C9: schema validation runs before the bot filter.  A payload that
fails validation is answered 400 `invalid_payload` even when the
honeypot field is filled; a honeypot value longer than 200 characters
itself fails validation; and the fake-success response is reachable
only from payloads that pass the full schema with a non-empty
honeypot. -/
theorem validation_precedes_honeypot (env : Env) (req : ReqCtx) (now : Int)
    (store : List Row) (np : NormalizedPayload) :
    (waitlistPayloadCheck np = false →
       handleParsed env req now store np = (invalidPayloadResponse, store) ∧
       invalidPayloadResponse.status = 400 ∧
       invalidPayloadResponse.error = some "invalid_payload") ∧
    (∀ w, np.website = some w → jsTrim w = w → w.length > 200 →
       waitlistPayloadCheck np = false) ∧
    ((handleParsed env req now store np).1 = botSuccessResponse →
       waitlistPayloadCheck np = true ∧ ∃ w, np.website = some w ∧ w.length > 0) := by
  refine ⟨?_, ?_, ?_⟩
  · intro hcheck
    refine ⟨?_, rfl, rfl⟩
    cases hx : np.email <;> simp [handleParsed, hx, hcheck]
  · intro w hw htrim hlen
    have h200 : zodOptStrMax 200 np.website = false := by
      rw [hw]
      simp only [zodOptStrMax]
      rw [htrim]
      exact decide_eq_false (by omega)
    unfold waitlistPayloadCheck
    rw [h200]
    simp
  · intro hfake
    unfold handleParsed at hfake
    split at hfake
    case h_1 email heq1 heq2 =>
      refine ⟨heq2, ?_⟩
      split at hfake
      case isTrue hcond =>
        cases hw : np.website with
        | none => rw [hw] at hcond; exact absurd hcond (by simp)
        | some w =>
          rw [hw] at hcond
          exact ⟨w, rfl, by simpa using hcond⟩
      case isFalse hcond =>
        exfalso
        dsimp only at hfake
        split at hfake
        · simp [rateLimitedResponse, botSuccessResponse] at hfake
        · simp [createdResponse, botSuccessResponse] at hfake
    case h_2 h =>
      exfalso
      simp [invalidPayloadResponse, botSuccessResponse] at hfake

/-- A normalized honeypot payload whose honeypot content exceeds 200
characters. -/
def wLongBotNp : NormalizedPayload :=
  normalizePayload [("email", .str "a@b.com"), ("website", .str (String.mk (List.replicate 201 'x')))]

set_option maxRecDepth 4000 in
/-- C9 witness: an over-long honeypot is rejected 400, not answered
with the fake success. -/
theorem validation_precedes_honeypot_witness :
    handleParsed wEnv wReq 1700000000000 [] wLongBotNp = (invalidPayloadResponse, []) ∧
      invalidPayloadResponse.status = 400 :=
  ⟨((validation_precedes_honeypot wEnv wReq 1700000000000 [] wLongBotNp).1 rfl).1, rfl⟩

/-- C4: the upsert writer first runs the plain statement; if and only
if it fails with the specific `ip_hash` NOT NULL constraint error does
it retry exactly once, binding the same values with the SHA-256 hex of
the connecting IP spliced in as the sixth value; every other thrown
value propagates unmodified, a failing retry also propagates, and no
third statement is ever issued. -/
theorem ipHash_fallback_retry (db : DbOutcomes) (vals : List SqlValue) (ip : String) :
    (runUpsertWithFallback db vals ip).attempts.length ≤ 2 ∧
    ((runUpsertWithFallback db vals ip).attempts.length = 2 ↔
       ∃ e, db.runPlain = some e ∧ isIpHashConstraintError e = true) ∧
    (db.runPlain = none →
       runUpsertWithFallback db vals ip = ⟨none, [vals]⟩) ∧
    (∀ e, db.runPlain = some e → isIpHashConstraintError e = true →
       runUpsertWithFallback db vals ip =
         ⟨db.runWithHash, [vals, vals.take 5 ++ [SqlValue.text (sha256Hex ip)] ++ vals.drop 5]⟩) ∧
    (∀ e, db.runPlain = some e → isIpHashConstraintError e = false →
       runUpsertWithFallback db vals ip = ⟨some e, [vals]⟩) ∧
    (∀ msg, isIpHashConstraintError (.errorObj msg) =
       strIncludes msg "NOT NULL constraint failed: waitlist_entries.ip_hash") ∧
    isIpHashConstraintError .other = false := by
  refine ⟨?_, ?_, ?_, ?_, ?_, fun msg => rfl, rfl⟩
  · cases h : db.runPlain with
    | none => simp [runUpsertWithFallback, h]
    | some e =>
      by_cases hc : isIpHashConstraintError e <;>
        simp [runUpsertWithFallback, h, hc]
  · cases h : db.runPlain with
    | none => simp [runUpsertWithFallback, h]
    | some e =>
      by_cases hc : isIpHashConstraintError e <;>
        simp [runUpsertWithFallback, h, hc]
  · intro h
    simp [runUpsertWithFallback, h]
  · intro e h hc
    simp [runUpsertWithFallback, h, hc, upsertValuesWithIpHash]
  · intro e h hc
    simp [runUpsertWithFallback, h, hc]

/-- A D1-style error message for the missing `ip_hash` column. -/
def wIpHashError : JsThrown :=
  .errorObj "D1_ERROR: NOT NULL constraint failed: waitlist_entries.ip_hash: SQLITE_CONSTRAINT"

/-- C4 witness: the specific constraint failure triggers exactly one
retry with the hashed IP spliced in; an unrelated error propagates. -/
theorem ipHash_fallback_retry_witness :
    runUpsertWithFallback ⟨some wIpHashError, none⟩ [SqlValue.text "a@b.com"] "203.0.113.7" =
      ⟨none, [[SqlValue.text "a@b.com"],
        [SqlValue.text "a@b.com"].take 5 ++ [SqlValue.text (sha256Hex "203.0.113.7")] ++
          [SqlValue.text "a@b.com"].drop 5]⟩ ∧
    runUpsertWithFallback ⟨some (.errorObj "UNIQUE constraint failed"), none⟩
        [SqlValue.text "a@b.com"] "203.0.113.7" =
      ⟨some (.errorObj "UNIQUE constraint failed"), [[SqlValue.text "a@b.com"]]⟩ :=
  ⟨(ipHash_fallback_retry ⟨some wIpHashError, none⟩ [SqlValue.text "a@b.com"]
        "203.0.113.7").2.2.2.1 wIpHashError rfl (by decide),
   (ipHash_fallback_retry ⟨some (.errorObj "UNIQUE constraint failed"), none⟩
        [SqlValue.text "a@b.com"] "203.0.113.7").2.2.2.2.1
     (.errorObj "UNIQUE constraint failed") rfl (by decide)⟩

/-- A multipart request whose `formData()` parsing rejects. -/
def wBadForm : RawRequestBody :=
  { contentType := some "multipart/form-data; boundary=----x"
    jsonParse := none
    formData := .error (.errorObj "TypeError: Failed to parse body as FormData.") }

/-- C5 counterexample: the body parser is not total.  `request.json()`
is guarded with `.catch`, but `request.formData()` is not, so a
multipart request whose form parsing rejects throws past the parser and
out of the handler instead of returning a key/value structure. -/
theorem body_parser_not_total :
    parseRequestBody wBadForm =
      Except.error (JsThrown.errorObj "TypeError: Failed to parse body as FormData.") ∧
    postWaitlist wEnv { wReq with body := wBadForm } 1700000000000 [] =
      Except.error (JsThrown.errorObj "TypeError: Failed to parse body as FormData.") :=
  ⟨rfl, rfl⟩

/-- C5 (amended): the body parser returns a key/value record without
throwing for every request except a form-encoded/multipart one whose
`formData()` parsing rejects — that rejection propagates unmodified,
since the worker attaches no `.catch` there.  Under a JSON content
type the parser never throws: a JSON parse failure or a non-object
parse result yields the empty record; content types other than JSON,
form-encoded, or multipart also yield the empty record, which
deterministically fails validation (missing required email). -/
theorem body_parser_degrades_json_throws_form (request : RawRequestBody) :
    (strIncludes (request.contentType.getD "") "application/json" = true →
       (request.jsonParse = none → parseRequestBody request = .ok []) ∧
       (∀ v, request.jsonParse = some v → isRecord (some v) = false →
          parseRequestBody request = .ok []) ∧
       (∀ e, parseRequestBody request ≠ .error e)) ∧
    (strIncludes (request.contentType.getD "") "application/json" = false →
     strIncludes (request.contentType.getD "") "application/x-www-form-urlencoded" = false →
     strIncludes (request.contentType.getD "") "multipart/form-data" = false →
       parseRequestBody request = .ok []) ∧
    (∀ e, strIncludes (request.contentType.getD "") "application/json" = false →
       (strIncludes (request.contentType.getD "") "application/x-www-form-urlencoded" = true ∨
        strIncludes (request.contentType.getD "") "multipart/form-data" = true) →
       request.formData = .error e →
       parseRequestBody request = .error e) ∧
    (normalizePayload []).email = none ∧
    waitlistPayloadCheck (normalizePayload []) = false ∧
    (∀ (env : Env) (req : ReqCtx) (now : Int) (store : List Row),
       handleParsed env req now store (normalizePayload []) = (invalidPayloadResponse, store)) := by
  refine ⟨?_, ?_, ?_, rfl, rfl, ?_⟩
  · intro hjson
    refine ⟨?_, ?_, ?_⟩
    · intro hnone
      simp [parseRequestBody, hjson, hnone]
    · intro v hv hrec
      simp [parseRequestBody, hjson, hv, hrec]
    · intro e
      simp [parseRequestBody, hjson]
  · intro h1 h2 h3
    simp [parseRequestBody, h1, h2, h3]
  · intro e h1 h2 hform
    simp only [parseRequestBody]
    rw [if_neg (by simp [h1])]
    rw [if_pos (by simpa using h2)]
    rw [hform]
  · intro env req now store
    have hx : (normalizePayload []).email = none := rfl
    simp [handleParsed, hx]

/-- C5 witness: malformed JSON, a JSON non-object body and a text
content type all degrade to the empty record (no throw), a rejecting
multipart body propagates its error, and the empty record is rejected
400. -/
theorem body_parser_degrades_json_throws_form_witness :
    parseRequestBody ⟨some "application/json", none, .ok []⟩ = .ok [] ∧
    parseRequestBody ⟨some "application/json", some (.str "hello"), .ok []⟩ = .ok [] ∧
    parseRequestBody ⟨some "text/plain", some (.obj [("email", .str "a@b.com")]), .ok []⟩ =
      .ok [] ∧
    parseRequestBody wBadForm =
      .error (.errorObj "TypeError: Failed to parse body as FormData.") ∧
    handleParsed wEnv wReq 1700000000000 [] (normalizePayload []) = (invalidPayloadResponse, []) :=
  ⟨((body_parser_degrades_json_throws_form ⟨some "application/json", none, .ok []⟩).1
      (by decide)).1 rfl,
   ((body_parser_degrades_json_throws_form
      ⟨some "application/json", some (.str "hello"), .ok []⟩).1 (by decide)).2.1
     (.str "hello") rfl rfl,
   (body_parser_degrades_json_throws_form
      ⟨some "text/plain", some (.obj [("email", .str "a@b.com")]), .ok []⟩).2.1
     (by decide) (by decide) (by decide),
   (body_parser_degrades_json_throws_form wBadForm).2.2.1
     (.errorObj "TypeError: Failed to parse body as FormData.")
     (by decide) (Or.inr (by decide)) rfl,
   (body_parser_degrades_json_throws_form wBadForm).2.2.2.2.2 wEnv wReq 1700000000000 []⟩

/-- The next UTC midnight strictly after instant `t` (the spec's
`nextUTCmidnight`): the next multiple of `86400000` ms. -/
def nextUtcMidnightAfter (t : Int) : Int := (t / 86400000 + 1) * 86400000

/-- C6: a rate-limited response carries `Retry-After` equal to
`secondsUntilNextUtcDay now`, which for every instant equals
`max 1 (ceil((nextUTCmidnight − now) / 1000))` and is never below 1. -/
theorem retry_after_next_utc_midnight (env : Env) (req : ReqCtx) (now : Int)
    (store : List Row) (np : NormalizedPayload) :
    ((handleParsed env req now store np).1.status = 429 →
       (handleParsed env req now store np).1.retryAfter =
         some (secondsUntilNextUtcDay now)) ∧
    secondsUntilNextUtcDay now = max 1 (jsCeilDiv (nextUtcMidnightAfter now - now) 1000) ∧
    1 ≤ secondsUntilNextUtcDay now := by
  have hformula : secondsUntilNextUtcDay now =
      max 1 (jsCeilDiv (nextUtcMidnightAfter now - now) 1000) := by
    unfold secondsUntilNextUtcDay
    rw [nextUtcDayMs_eq]
    rfl
  refine ⟨?_, hformula, le_max_left 1 _⟩
  intro h429
  unfold handleParsed at h429 ⊢
  split at h429
  case h_1 email heq1 heq2 =>
    split at h429
    case isTrue hcond => simp [botSuccessResponse] at h429
    case isFalse hcond =>
      rw [if_neg hcond]
      dsimp only at h429
      split at h429
      case isTrue hrl =>
        dsimp only
        rw [if_pos hrl]
        rfl
      case isFalse hrl => simp [createdResponse] at h429
  case h_2 h => simp [invalidPayloadResponse] at h429

/-- A row as written by the handler at a fixed instant. -/
def wRow : Row := mkRow "a@b.com" wReq wNp 1700000000000 "203.0.113.7"

/-- Ten rows from the same IP within the same UTC day. -/
def wStore10 : List Row := (List.range 10).map fun i => { wRow with email := toString i }

set_option maxRecDepth 4000 in
/-- C6 witness: a request over the default limit gets `Retry-After`
6400 seconds before the next UTC midnight. -/
theorem retry_after_next_utc_midnight_witness :
    (handleParsed wEnv wReq 1700000000123 wStore10 wNp).1.retryAfter =
      some (secondsUntilNextUtcDay 1700000000123) ∧
    secondsUntilNextUtcDay 1700000000123 = 6400 :=
  ⟨(retry_after_next_utc_midnight wEnv wReq 1700000000123 wStore10 wNp).1 rfl, by decide⟩

/-- C1: the daily ceiling is `parsePositiveInt` of the configuration
with default 10 — absent, unparsable (`NaN`) or non-positive values all
fall back to 10, and the effective limit is always at least 1; the
rate-limit window is the UTC calendar day of the request instant; and a
valid non-bot submission succeeds (201, row written) exactly while the
count of stored rows with this connecting IP and `created_at` in that
day is strictly below the limit, and is rejected 429 with no write once
the count reaches the limit — regardless of the emails involved. -/
theorem rate_limit_per_ip_per_utc_day (env : Env) (req : ReqCtx) (now : Int)
    (store : List Row) (np : NormalizedPayload) (e : String)
    (hemail : np.email = some e) (hcheck : waitlistPayloadCheck np = true)
    (hbot : (match np.website with
             | some w => decide (w.length > 0)
             | none => false) = false) :
    parsePositiveInt none 10 = 10 ∧
    (∀ s, jsParseInt s = none → parsePositiveInt (some s) 10 = 10) ∧
    (∀ s n, jsParseInt s = some n → n < 1 → parsePositiveInt (some s) 10 = 10) ∧
    (∀ cfg, 1 ≤ parsePositiveInt cfg 10) ∧
    startOfUtcDayMs now = now / 86400000 * 86400000 ∧
    endOfUtcDayMs now = now / 86400000 * 86400000 + 86399999 ∧
    (((rateLimitCount store (getConnectingIp req.headers) (startOfUtcDayMs now)
         (endOfUtcDayMs now) : Int) < parsePositiveInt env.waitlistRateLimitPerDay 10 →
       handleParsed env req now store np =
         (createdResponse,
          applyUpsert store (mkRow (jsToLower e) req np now (getConnectingIp req.headers))) ∧
       createdResponse.status = 201) ∧
     ((rateLimitCount store (getConnectingIp req.headers) (startOfUtcDayMs now)
         (endOfUtcDayMs now) : Int) ≥ parsePositiveInt env.waitlistRateLimitPerDay 10 →
       handleParsed env req now store np =
         (rateLimitedResponse (secondsUntilNextUtcDay now), store) ∧
       (rateLimitedResponse (secondsUntilNextUtcDay now)).status = 429)) := by
  refine ⟨rfl, ?_, ?_, ?_, startOfUtcDayMs_eq now, endOfUtcDayMs_eq now, ?_, ?_⟩
  · intro s h
    by_cases hs : s = "" <;> simp [parsePositiveInt, hs, h]
  · intro s n h hn
    by_cases hs : s = "" <;> simp [parsePositiveInt, hs, h, hn]
  · intro cfg
    cases cfg with
    | none => norm_num [parsePositiveInt]
    | some s =>
      by_cases hs : s = ""
      · simp [parsePositiveInt, hs]
      · cases h : jsParseInt s with
        | none => simp [parsePositiveInt, hs, h]
        | some n =>
          simp only [parsePositiveInt, hs, if_false, h]
          split_ifs with hlt <;> omega
  · intro hlt
    refine ⟨?_, rfl⟩
    simp only [handleParsed, hemail, hcheck]
    rw [if_neg (by simp [hbot])]
    rw [if_neg (by omega)]
  · intro hge
    refine ⟨?_, rfl⟩
    simp only [handleParsed, hemail, hcheck]
    rw [if_neg (by simp [hbot])]
    rw [if_pos (by omega)]

set_option maxRecDepth 4000 in
/-- C1 witness: with an empty store the submission is stored (201);
with ten same-day rows from the same IP it is rejected 429; and
non-numeric or non-positive configuration falls back to 10. -/
theorem rate_limit_per_ip_per_utc_day_witness :
    handleParsed wEnv wReq 1700000000123 [] wNp =
      (createdResponse,
       applyUpsert [] (mkRow (jsToLower "A@b.com") wReq wNp 1700000000123
         (getConnectingIp wReq.headers))) ∧
    handleParsed wEnv wReq 1700000000123 wStore10 wNp =
      (rateLimitedResponse (secondsUntilNextUtcDay 1700000000123), wStore10) ∧
    parsePositiveInt (some "abc") 10 = 10 ∧
    parsePositiveInt (some "0") 10 = 10 :=
  ⟨((rate_limit_per_ip_per_utc_day wEnv wReq 1700000000123 [] wNp "A@b.com"
       rfl rfl rfl).2.2.2.2.2.2.1 (by decide)).1,
   ((rate_limit_per_ip_per_utc_day wEnv wReq 1700000000123 wStore10 wNp "A@b.com"
       rfl rfl rfl).2.2.2.2.2.2.2 (by decide)).1,
   (rate_limit_per_ip_per_utc_day wEnv wReq 1700000000123 [] wNp "A@b.com"
       rfl rfl rfl).2.1 "abc" (by decide),
   (rate_limit_per_ip_per_utc_day wEnv wReq 1700000000123 [] wNp "A@b.com"
       rfl rfl rfl).2.2.1 "0" 0 (by decide) (by decide)⟩

/-- C10: for a valid, non-bot, non-rate-limited submission the handler
writes `mkRow`; when `source` is absent the written `source_url` and
`metadata.request.source` are the full request URL, when `landingPath`
is absent the written `landing_path` is the URL's pathname, and these
two columns are never NULL in a written row. -/
theorem source_and_landing_defaults (env : Env) (req : ReqCtx) (now : Int)
    (store : List Row) (np : NormalizedPayload) (e : String)
    (hemail : np.email = some e) (hcheck : waitlistPayloadCheck np = true)
    (hbot : (match np.website with
             | some w => decide (w.length > 0)
             | none => false) = false)
    (hrl : (rateLimitCount store (getConnectingIp req.headers) (startOfUtcDayMs now)
        (endOfUtcDayMs now) : Int) < parsePositiveInt env.waitlistRateLimitPerDay 10) :
    handleParsed env req now store np =
      (createdResponse,
       applyUpsert store (mkRow (jsToLower e) req np now (getConnectingIp req.headers))) ∧
    (np.source = none →
       (mkRow (jsToLower e) req np now (getConnectingIp req.headers)).source_url =
           some req.urlFull ∧
       (mkRow (jsToLower e) req np now
           (getConnectingIp req.headers)).metadata_json.request.source = req.urlFull) ∧
    (np.landingPath = none →
       (mkRow (jsToLower e) req np now (getConnectingIp req.headers)).landing_path =
         some req.urlPath) ∧
    (mkRow (jsToLower e) req np now (getConnectingIp req.headers)).source_url ≠ none ∧
    (mkRow (jsToLower e) req np now (getConnectingIp req.headers)).landing_path ≠ none := by
  refine ⟨?_, ?_, ?_, by simp [mkRow], by simp [mkRow]⟩
  · simp only [handleParsed, hemail, hcheck]
    rw [if_neg (by simp [hbot])]
    rw [if_neg (by omega)]
  · intro hsource
    simp [mkRow, buildMetadata, hsource]
  · intro hlanding
    simp [mkRow, hlanding]

/-- C10 witness: the fixture request carries no `source` or
`landingPath`, and the stored row holds the request URL and pathname. -/
theorem source_and_landing_defaults_witness :
    (mkRow (jsToLower "A@b.com") wReq wNp 1700000000123
        (getConnectingIp wReq.headers)).source_url = some "https://example.com/api/waitlist" ∧
    (mkRow (jsToLower "A@b.com") wReq wNp 1700000000123
        (getConnectingIp wReq.headers)).metadata_json.request.source =
      "https://example.com/api/waitlist" ∧
    (mkRow (jsToLower "A@b.com") wReq wNp 1700000000123
        (getConnectingIp wReq.headers)).landing_path = some "/api/waitlist" :=
  ⟨((source_and_landing_defaults wEnv wReq 1700000000123 [] wNp "A@b.com"
      rfl rfl rfl (by decide)).2.1 rfl).1,
   ((source_and_landing_defaults wEnv wReq 1700000000123 [] wNp "A@b.com"
      rfl rfl rfl (by decide)).2.1 rfl).2,
   (source_and_landing_defaults wEnv wReq 1700000000123 [] wNp "A@b.com"
      rfl rfl rfl (by decide)).2.2.1 rfl⟩

/-- C8: a whitespace-only email field is treated as absent and the
request is rejected 400; an email of valid address form whose trimmed
length is exactly 320 passes validation and (non-bot, within the rate
limit) is accepted; at 321 characters the request is rejected 400. -/
theorem email_whitespace_and_320_boundary :
    (∀ (raw : RawRecord) (s : String), jsGet raw "email" = some (.str s) → jsTrim s = "" →
       (normalizePayload raw).email = none ∧
       (∀ (env : Env) (req : ReqCtx) (now : Int) (store : List Row),
          handleParsed env req now store (normalizePayload raw) =
            (invalidPayloadResponse, store)) ∧
       invalidPayloadResponse.status = 400) ∧
    (∀ (e : String) (env : Env) (req : ReqCtx) (now : Int) (store : List Row),
       zodEmailCheck e = true → jsTrim e = e → e.length = 320 →
       (rateLimitCount store (getConnectingIp req.headers) (startOfUtcDayMs now)
           (endOfUtcDayMs now) : Int) < parsePositiveInt env.waitlistRateLimitPerDay 10 →
       waitlistPayloadCheck (normalizePayload [("email", JsValue.str e)]) = true ∧
       (handleParsed env req now store (normalizePayload [("email", JsValue.str e)])).1 =
         createdResponse) ∧
    (∀ (e : String) (env : Env) (req : ReqCtx) (now : Int) (store : List Row),
       jsTrim e = e → e.length = 321 →
       waitlistPayloadCheck (normalizePayload [("email", JsValue.str e)]) = false ∧
       handleParsed env req now store (normalizePayload [("email", JsValue.str e)]) =
         (invalidPayloadResponse, store)) := by
  refine ⟨?_, ?_, ?_⟩
  · intro raw s hget htrim
    have hnone : (normalizePayload raw).email = none := by
      simp [normalizePayload, hget, toOptionalString, htrim]
    exact ⟨hnone, fun env req now store => by simp [handleParsed, hnone], rfl⟩
  · intro e env req now store hval htrim hlen hrl
    have hemail : (normalizePayload [("email", JsValue.str e)]).email = some e := by
      have h0 : (normalizePayload [("email", JsValue.str e)]).email =
          (if (jsTrim e).length > 0 then some (jsTrim e) else none) := rfl
      rw [h0, htrim, if_pos (by omega)]
    have hcheck : waitlistPayloadCheck (normalizePayload [("email", JsValue.str e)]) = true := by
      unfold waitlistPayloadCheck
      rw [hemail]
      dsimp only
      rw [htrim, hval, hlen]
      rfl
    have hweb : (normalizePayload [("email", JsValue.str e)]).website = none := rfl
    refine ⟨hcheck, ?_⟩
    simp only [handleParsed, hemail, hcheck, hweb]
    rw [if_neg (by simp)]
    rw [if_neg (by omega)]
  · intro e env req now store htrim hlen
    have hemail : (normalizePayload [("email", JsValue.str e)]).email = some e := by
      have h0 : (normalizePayload [("email", JsValue.str e)]).email =
          (if (jsTrim e).length > 0 then some (jsTrim e) else none) := rfl
      rw [h0, htrim, if_pos (by omega)]
    have hcheck : waitlistPayloadCheck (normalizePayload [("email", JsValue.str e)]) = false := by
      unfold waitlistPayloadCheck
      rw [hemail]
      dsimp only
      rw [htrim]
      rw [decide_eq_false (by omega : ¬ e.length ≤ 320)]
      simp
    refine ⟨hcheck, ?_⟩
    simp [handleParsed, hemail, hcheck]

/-- A valid-form email of exactly 320 characters. -/
def wEmail320 : String := String.mk (List.replicate 314 'a' ++ "@b.com".data)

/-- A valid-form email of 321 characters. -/
def wEmail321 : String := String.mk (List.replicate 315 'a' ++ "@b.com".data)

set_option maxRecDepth 8000 in
/-- C8 witness: the three boundary emails behave as claimed. -/
theorem email_whitespace_and_320_boundary_witness :
    (normalizePayload [("email", JsValue.str "   ")]).email = none ∧
    waitlistPayloadCheck (normalizePayload [("email", JsValue.str wEmail320)]) = true ∧
    waitlistPayloadCheck (normalizePayload [("email", JsValue.str wEmail321)]) = false :=
  ⟨(email_whitespace_and_320_boundary.1 [("email", JsValue.str "   ")] "   " rfl (by decide)).1,
   (email_whitespace_and_320_boundary.2.1 wEmail320 wEnv wReq 1700000000123 []
      (by decide) (by decide) (by decide) (by decide)).1,
   (email_whitespace_and_320_boundary.2.2 wEmail321 wEnv wReq 1700000000123 []
      (by decide) (by decide)).1⟩

/-- Mapping a function that fixes every element is the identity. -/
theorem list_map_id_of {α : Type} (l : List α) (f : α → α) (h : ∀ x ∈ l, f x = x) :
    l.map f = l := by
  induction l with
  | nil => rfl
  | cons a t ih =>
    simp only [List.map_cons, h a (by simp)]
    rw [ih fun x hx => h x (by simp [hx])]

/-- Inserting a row whose email is absent from the store appends it. -/
theorem applyUpsert_fresh (store : List Row) (row : Row)
    (h : ∀ r ∈ store, r.email ≠ row.email) :
    applyUpsert store row = store ++ [row] := by
  unfold applyUpsert
  rw [if_neg]
  intro hc
  rw [List.any_eq_true] at hc
  obtain ⟨r, hr, he⟩ := hc
  exact h r hr (by simpa using he)

/-- Upserting onto a store whose only row with this email is `old`
rewrites exactly that row: every mutable column from the new row,
`created_at` and `ip_hash` kept from `old`. -/
theorem applyUpsert_existing (pre : List Row) (old row : Row)
    (h : ∀ r ∈ pre, r.email ≠ row.email) (he : old.email = row.email) :
    applyUpsert (pre ++ [old]) row =
      pre ++ [{ row with created_at := old.created_at, ip_hash := old.ip_hash }] := by
  unfold applyUpsert
  rw [if_pos]
  · rw [List.map_append]
    congr 1
    · exact list_map_id_of pre _ fun r hr => by
        rw [if_neg]
        simpa using h r hr
    · simp only [List.map_cons, List.map_nil]
      rw [if_pos (by simpa using he)]
  · rw [List.any_eq_true]
    exact ⟨old, by simp, by simpa using he⟩

/-- C2: submitting the same email twice (both submissions valid,
non-bot, non-rate-limited, the email fresh in the store) leaves exactly
one row for that email; the row carries every mutable column from the
second submission, `updated_at` is the second timestamp and
`created_at` the first. -/
theorem upsert_same_email_overwrites (env : Env) (req1 req2 : ReqCtx) (now1 now2 : Int)
    (store : List Row) (np1 np2 : NormalizedPayload) (e1 e2 : String)
    (he1 : np1.email = some e1) (hc1 : waitlistPayloadCheck np1 = true)
    (hb1 : (match np1.website with
            | some w => decide (w.length > 0)
            | none => false) = false)
    (he2 : np2.email = some e2) (hc2 : waitlistPayloadCheck np2 = true)
    (hb2 : (match np2.website with
            | some w => decide (w.length > 0)
            | none => false) = false)
    (hsame : jsToLower e1 = jsToLower e2)
    (hfresh : ∀ r ∈ store, r.email ≠ jsToLower e1)
    (hrl1 : (rateLimitCount store (getConnectingIp req1.headers) (startOfUtcDayMs now1)
        (endOfUtcDayMs now1) : Int) < parsePositiveInt env.waitlistRateLimitPerDay 10)
    (hrl2 : (rateLimitCount
        (store ++ [mkRow (jsToLower e1) req1 np1 now1 (getConnectingIp req1.headers)])
        (getConnectingIp req2.headers) (startOfUtcDayMs now2)
        (endOfUtcDayMs now2) : Int) < parsePositiveInt env.waitlistRateLimitPerDay 10) :
    handleParsed env req1 now1 store np1 =
      (createdResponse,
       store ++ [mkRow (jsToLower e1) req1 np1 now1 (getConnectingIp req1.headers)]) ∧
    handleParsed env req2 now2
        (store ++ [mkRow (jsToLower e1) req1 np1 now1 (getConnectingIp req1.headers)]) np2 =
      (createdResponse,
       store ++ [{ mkRow (jsToLower e2) req2 np2 now2 (getConnectingIp req2.headers) with
                     created_at := now1, ip_hash := none }]) ∧
    (store ++ [{ mkRow (jsToLower e2) req2 np2 now2 (getConnectingIp req2.headers) with
                   created_at := now1, ip_hash := none }]).filter
        (fun r => r.email = jsToLower e2) =
      [{ mkRow (jsToLower e2) req2 np2 now2 (getConnectingIp req2.headers) with
           created_at := now1, ip_hash := none }] ∧
    ({ mkRow (jsToLower e2) req2 np2 now2 (getConnectingIp req2.headers) with
         created_at := now1, ip_hash := none } : Row).updated_at = now2 ∧
    ({ mkRow (jsToLower e2) req2 np2 now2 (getConnectingIp req2.headers) with
         created_at := now1, ip_hash := none } : Row).created_at = now1 := by
  have hrow1email : (mkRow (jsToLower e1) req1 np1 now1 (getConnectingIp req1.headers)).email =
      jsToLower e1 := rfl
  have hrow2email : (mkRow (jsToLower e2) req2 np2 now2 (getConnectingIp req2.headers)).email =
      jsToLower e2 := rfl
  refine ⟨?_, ?_, ?_, rfl, rfl⟩
  · simp only [handleParsed, he1, hc1]
    rw [if_neg (by simp [hb1])]
    rw [if_neg (by omega)]
    rw [applyUpsert_fresh _ _ (by rw [hrow1email]; exact hfresh)]
  · simp only [handleParsed, he2, hc2]
    rw [if_neg (by simp [hb2])]
    rw [if_neg (by omega)]
    rw [applyUpsert_existing store _ _
      (by rw [hrow2email, ← hsame]; exact hfresh) (by rw [hrow1email, hrow2email]; exact hsame)]
    rfl
  · rw [List.filter_append]
    have h1 : store.filter (fun r => decide (r.email = jsToLower e2)) = [] := by
      rw [List.filter_eq_nil_iff]
      intro r hr
      rw [← hsame]
      simpa using hfresh r hr
    have h2 : List.filter (fun r => decide (r.email = jsToLower e2))
        [{ mkRow (jsToLower e2) req2 np2 now2 (getConnectingIp req2.headers) with
             created_at := now1, ip_hash := none }] =
        [{ mkRow (jsToLower e2) req2 np2 now2 (getConnectingIp req2.headers) with
             created_at := now1, ip_hash := none }] := by
      simp [List.filter, hrow2email]
    rw [h1, h2, List.nil_append]

/-- A second submission for the same email with different casing and
content. -/
def wNp2 : NormalizedPayload :=
  normalizePayload [("email", .str "a@B.com"), ("qualifier", .str "founder")]

set_option maxRecDepth 4000 in
/-- C2 witness: two concrete submissions of the same email leave one
row with the second's values, `created_at` of the first write and
`updated_at` of the second. -/
theorem upsert_same_email_overwrites_witness :
    handleParsed wEnv wReq 1700000000123
        ([] ++ [mkRow (jsToLower "A@b.com") wReq wNp 1700000000000
          (getConnectingIp wReq.headers)]) wNp2 =
      (createdResponse,
       [] ++ [{ mkRow (jsToLower "a@B.com") wReq wNp2 1700000000123
                  (getConnectingIp wReq.headers) with
                  created_at := 1700000000000, ip_hash := none }]) ∧
    ({ mkRow (jsToLower "a@B.com") wReq wNp2 1700000000123 (getConnectingIp wReq.headers) with
         created_at := 1700000000000, ip_hash := none } : Row).updated_at = 1700000000123 ∧
    ({ mkRow (jsToLower "a@B.com") wReq wNp2 1700000000123 (getConnectingIp wReq.headers) with
         created_at := 1700000000000, ip_hash := none } : Row).created_at = 1700000000000 :=
  ⟨(upsert_same_email_overwrites wEnv wReq wReq 1700000000000 1700000000123 [] wNp wNp2
      "A@b.com" "a@B.com" rfl rfl rfl rfl rfl rfl (by decide) (by simp) (by decide)
      (by decide)).2.1,
   (upsert_same_email_overwrites wEnv wReq wReq 1700000000000 1700000000123 [] wNp wNp2
      "A@b.com" "a@B.com" rfl rfl rfl rfl rfl rfl (by decide) (by simp) (by decide)
      (by decide)).2.2.2.1,
   (upsert_same_email_overwrites wEnv wReq wReq 1700000000000 1700000000123 [] wNp wNp2
      "A@b.com" "a@B.com" rfl rfl rfl rfl rfl rfl (by decide) (by simp) (by decide)
      (by decide)).2.2.2.2⟩

/-- `jsTake` never lengthens a string. -/
theorem jsTake_length_le (n : Nat) (s : String) : (jsTake n s).length ≤ n := by
  have h : (jsTake n s).length = (s.data.take n).length := rfl
  rw [h, List.length_take]
  omega

/-- `jsTake` is the identity on strings within the bound. -/
theorem jsTake_of_le (n : Nat) (s : String) (h : s.length ≤ n) : jsTake n s = s := by
  unfold jsTake
  rw [List.take_of_length_le h]

/-- A kept value of `toOptionalString` is non-empty. -/
theorem toOptionalString_pos (x : Option JsValue) (v : String)
    (h : toOptionalString x = some v) : 0 < v.length := by
  cases x with
  | none => simp [toOptionalString] at h
  | some j =>
    cases j with
    | str s =>
      simp only [toOptionalString] at h
      split at h
      next hpos =>
        injection h with h2
        subst h2
        exact hpos
      next => cases h
    | num n => simp [toOptionalString] at h
    | bool b => simp [toOptionalString] at h
    | null => simp [toOptionalString] at h
    | arr l => simp [toOptionalString] at h
    | obj o => simp [toOptionalString] at h

/-- `jsSetKey` grows the record by at most one entry. -/
theorem jsSetKey_length {α : Type} (out : List (String × α)) (k : String) (v : α) :
    (jsSetKey out k v).length ≤ out.length + 1 := by
  unfold jsSetKey
  split
  · rw [List.length_map]; omega
  · rw [List.length_append]; simp

/-- Every entry of `jsSetKey out k v` is an old entry or `(k, v)`. -/
theorem jsSetKey_mem {α : Type} (out : List (String × α)) (k : String) (v : α)
    (kv : String × α) (h : kv ∈ jsSetKey out k v) : kv ∈ out ∨ kv = (k, v) := by
  unfold jsSetKey at h
  split at h
  · rw [List.mem_map] at h
    obtain ⟨p, hp, he⟩ := h
    by_cases hk : p.1 = k
    · right; rw [if_pos hk] at he; exact he.symm
    · left; rw [if_neg hk] at he; exact he ▸ hp
  · rcases List.mem_append.mp h with h1 | h1
    · left; exact h1
    · right; simpa using h1

/-- `(k, v)` always ends up in `jsSetKey out k v`. -/
theorem jsSetKey_mem_self {α : Type} (out : List (String × α)) (k : String) (v : α) :
    (k, v) ∈ jsSetKey out k v := by
  unfold jsSetKey
  split
  next h =>
    rw [List.any_eq_true] at h
    obtain ⟨p, hp, he⟩ := h
    rw [List.mem_map]
    exact ⟨p, hp, by rw [if_pos (by simpa using he)]⟩
  · simp

/-- An entry with a different key survives `jsSetKey`. -/
theorem jsSetKey_mem_keep {α : Type} (out : List (String × α)) (k : String) (v : α)
    (kv : String × α) (hin : kv ∈ out) (hne : kv.1 ≠ k) : kv ∈ jsSetKey out k v := by
  unfold jsSetKey
  split
  · rw [List.mem_map]
    exact ⟨kv, hin, by rw [if_neg hne]⟩
  · exact List.mem_append_left _ hin

/-- The sanitize loop keeps the record within the 24-entry budget. -/
theorem sanitizeGo_length_le (fields : List (String × JsValue)) :
    ∀ (out : List (String × String)) (count : Nat),
      (sanitizeGo fields out count).length ≤ out.length + (24 - count) := by
  induction fields with
  | nil => intro out count; simp [sanitizeGo]
  | cons p rest ih =>
    intro out count
    obtain ⟨rawKey, rawValue⟩ := p
    simp only [sanitizeGo]
    split
    next hge => omega
    next hlt =>
      split
      next hkey => exact le_trans (ih out count) (by omega)
      next hkey =>
        split
        next => exact le_trans (ih out count) (by omega)
        next v hv =>
          refine le_trans (ih _ _) ?_
          have := jsSetKey_length out (jsTake 64 (jsTrim rawKey)) (jsTake 1200 v)
          omega

/-- Every entry the sanitize loop emits has a non-empty key of at most
64 characters and a non-empty value of at most 1200 characters. -/
theorem sanitizeGo_shape (fields : List (String × JsValue)) :
    ∀ (out : List (String × String)) (count : Nat),
      (∀ kv ∈ out, kv.1 ≠ "" ∧ kv.1.length ≤ 64 ∧ kv.2 ≠ "" ∧ kv.2.length ≤ 1200) →
      ∀ kv ∈ sanitizeGo fields out count,
        kv.1 ≠ "" ∧ kv.1.length ≤ 64 ∧ kv.2 ≠ "" ∧ kv.2.length ≤ 1200 := by
  induction fields with
  | nil => intro out count hout kv hkv; exact hout kv (by simpa [sanitizeGo] using hkv)
  | cons p rest ih =>
    intro out count hout kv hkv
    obtain ⟨rawKey, rawValue⟩ := p
    simp only [sanitizeGo] at hkv
    split at hkv
    next => exact hout kv hkv
    next =>
      split at hkv
      next => exact ih out count hout kv hkv
      next hkey =>
        split at hkv
        next => exact ih out count hout kv hkv
        next v hv =>
          refine ih _ _ ?_ kv hkv
          intro kv2 hkv2
          rcases jsSetKey_mem _ _ _ kv2 hkv2 with h | h
          · exact hout kv2 h
          · subst h
            have hvpos := toOptionalString_pos _ _ hv
            have hlenTake : (jsTake 1200 v).length = min 1200 v.length := by
              have h0 : (jsTake 1200 v).length = (v.data.take 1200).length := rfl
              rw [h0, List.length_take]
              rfl
            have htpos : 0 < (jsTake 1200 v).length := by rw [hlenTake]; omega
            refine ⟨hkey, jsTake_length_le 64 (jsTrim rawKey), ?_, jsTake_length_le 1200 v⟩
            intro hemp
            have hemp2 : jsTake 1200 v = "" := hemp
            rw [hemp2] at htpos
            exact absurd htpos (by decide)

/-- A non-empty string has positive length. -/
theorem length_pos_of_ne_empty (v : String) (h : v ≠ "") : 0 < v.length := by
  cases v with
  | mk l =>
    cases l with
    | nil => exact absurd rfl h
    | cons a t => simp [String.length]

/-- An entry already in the accumulator survives the sanitize loop when
every remaining field that sanitizes to its key carries that same
string value. -/
theorem sanitizeGo_keeps (fields : List (String × JsValue)) :
    ∀ (out : List (String × String)) (count : Nat) (k v : String), (k, v) ∈ out →
      jsTrim k = k → k.length ≤ 64 → jsTrim v = v → v ≠ "" → v.length ≤ 1200 →
      (∀ p ∈ fields, jsTake 64 (jsTrim p.1) = k → p = (k, JsValue.str v)) →
      (k, v) ∈ sanitizeGo fields out count := by
  induction fields with
  | nil => intro out count k v hin _ _ _ _ _ _; simpa [sanitizeGo] using hin
  | cons p tail ih =>
    intro out count k v hin hk hk64 hv hvne hv1200 huniq
    obtain ⟨rawKey, rawValue⟩ := p
    have huniqTail : ∀ q ∈ tail, jsTake 64 (jsTrim q.1) = k → q = (k, JsValue.str v) :=
      fun q hq => huniq q (by simp [hq])
    simp only [sanitizeGo]
    split
    next => exact hin
    next hlt =>
      split
      next hkeyEmpty => exact ih out count k v hin hk hk64 hv hvne hv1200 huniqTail
      next hkeyNe =>
        split
        next => exact ih out count k v hin hk hk64 hv hvne hv1200 huniqTail
        next v2 hv2 =>
          by_cases hkey0 : jsTake 64 (jsTrim rawKey) = k
          · have hp := huniq (rawKey, rawValue) (by simp) hkey0
            have hrv : rawValue = JsValue.str v := congrArg Prod.snd hp
            subst hrv
            have hval : v2 = v := by
              simp only [toOptionalString] at hv2
              rw [hv, if_pos (length_pos_of_ne_empty v hvne)] at hv2
              exact (Option.some.inj hv2).symm
            have htake : jsTake 1200 v2 = v := by
              rw [hval]
              exact jsTake_of_le 1200 v hv1200
            rw [hkey0, htake]
            exact ih _ _ k v (jsSetKey_mem_self out k v) hk hk64 hv hvne hv1200 huniqTail
          · refine ih _ _ k v ?_ hk hk64 hv hvne hv1200 huniqTail
            exact jsSetKey_mem_keep _ _ _ (k, v) hin (fun h => hkey0 h.symm)

/-- A well-formed string-valued field within the first 24 entries whose
sanitized key is carried by no other field survives the sanitize loop
with its value unchanged. -/
theorem sanitizeGo_sets (fields : List (String × JsValue)) :
    ∀ (out : List (String × String)) (count : Nat) (k v : String),
      (k, JsValue.str v) ∈ fields →
      jsTrim k = k → k ≠ "" → k.length ≤ 64 →
      jsTrim v = v → v ≠ "" → v.length ≤ 1200 →
      count + fields.length ≤ 24 →
      (∀ p ∈ fields, jsTake 64 (jsTrim p.1) = k → p = (k, JsValue.str v)) →
      (k, v) ∈ sanitizeGo fields out count := by
  induction fields with
  | nil => intro out count k v hmem; simp at hmem
  | cons p tail ih =>
    intro out count k v hmem hk hkne hk64 hv hvne hv1200 hcount huniq
    obtain ⟨rawKey, rawValue⟩ := p
    have huniqTail : ∀ q ∈ tail, jsTake 64 (jsTrim q.1) = k → q = (k, JsValue.str v) :=
      fun q hq => huniq q (by simp [hq])
    have hkk : jsTake 64 (jsTrim k) = k := by rw [hk]; exact jsTake_of_le 64 k hk64
    have hcount2 : count + tail.length + 1 ≤ 24 := by
      simp only [List.length_cons] at hcount
      omega
    simp only [sanitizeGo]
    split
    next hge => omega
    next hlt =>
      by_cases hkey0 : jsTake 64 (jsTrim rawKey) = k
      · have hp := huniq (rawKey, rawValue) (by simp) hkey0
        have hrv : rawValue = JsValue.str v := congrArg Prod.snd hp
        subst hrv
        split
        next hkeyEmpty => exact absurd (hkey0.symm.trans hkeyEmpty) hkne
        next hkeyNe =>
          split
          next hnone =>
            exfalso
            simp only [toOptionalString] at hnone
            rw [hv, if_pos (length_pos_of_ne_empty v hvne)] at hnone
            cases hnone
          next v2 hv2 =>
            have hval : v2 = v := by
              simp only [toOptionalString] at hv2
              rw [hv, if_pos (length_pos_of_ne_empty v hvne)] at hv2
              exact (Option.some.inj hv2).symm
            have htake : jsTake 1200 v2 = v := by
              rw [hval]
              exact jsTake_of_le 1200 v hv1200
            rw [hkey0, htake]
            exact sanitizeGo_keeps tail _ _ k v (jsSetKey_mem_self out k v)
              hk hk64 hv hvne hv1200 huniqTail
      · have hmemTail : (k, JsValue.str v) ∈ tail := by
          rcases List.mem_cons.mp hmem with h | h
          · exfalso
            have hrk : rawKey = k := (congrArg Prod.fst h).symm
            exact hkey0 (by rw [hrk, hkk])
          · exact h
        split
        next hkeyEmpty =>
          exact ih out count k v hmemTail hk hkne hk64 hv hvne hv1200 (by omega) huniqTail
        next hkeyNe =>
          split
          next =>
            exact ih out count k v hmemTail hk hkne hk64 hv hvne hv1200 (by omega) huniqTail
          next v2 hv2 =>
            refine ih _ (count + 1) k v hmemTail hk hkne hk64 hv hvne hv1200 (by omega) huniqTail

/-- C7: the sanitized copy of `additionalFields` stored in the metadata
blob has at most 24 entries, every kept key is non-empty of at most 64
characters and every kept value non-empty of at most 1200 characters,
the dedicated use-case key is always removed, the handler stores
exactly this sanitized-and-deleted record, and a well-formed
string-valued entry such as `teamSize: "3-10"` round-trips unchanged. -/
theorem additional_fields_sanitization (fields : RawRecord) :
    (jsDeleteKey (sanitizeLooseRecord (some fields)) "useCase").length ≤ 24 ∧
    (∀ kv ∈ jsDeleteKey (sanitizeLooseRecord (some fields)) "useCase",
       kv.1 ≠ "" ∧ kv.1.length ≤ 64 ∧ kv.2 ≠ "" ∧ kv.2.length ≤ 1200) ∧
    (∀ kv ∈ jsDeleteKey (sanitizeLooseRecord (some fields)) "useCase", kv.1 ≠ "useCase") ∧
    (∀ (req : ReqCtx) (np : NormalizedPayload),
       (buildMetadata req np).additionalFields =
         jsDeleteKey (sanitizeLooseRecord np.additionalFields) "useCase") ∧
    (∀ k v, (k, JsValue.str v) ∈ fields →
       jsTrim k = k → k ≠ "" → k.length ≤ 64 →
       jsTrim v = v → v ≠ "" → v.length ≤ 1200 → k ≠ "useCase" →
       fields.length ≤ 24 →
       (∀ p ∈ fields, jsTake 64 (jsTrim p.1) = k → p = (k, JsValue.str v)) →
       (k, v) ∈ jsDeleteKey (sanitizeLooseRecord (some fields)) "useCase") := by
  refine ⟨?_, ?_, ?_, fun req np => rfl, ?_⟩
  · refine le_trans (List.length_filter_le _ _) ?_
    have h := sanitizeGo_length_le fields [] 0
    simpa [sanitizeLooseRecord] using h
  · intro kv hkv
    have hmem : kv ∈ sanitizeLooseRecord (some fields) := (List.mem_filter.mp hkv).1
    exact sanitizeGo_shape fields [] 0 (by simp) kv (by simpa [sanitizeLooseRecord] using hmem)
  · intro kv hkv
    have h := (List.mem_filter.mp hkv).2
    simpa using h
  · intro k v hmem hk hkne hk64 hv hvne hv1200 hkuse hlen huniq
    refine List.mem_filter.mpr ⟨?_, by simpa using hkuse⟩
    have h := sanitizeGo_sets fields [] 0 k v hmem hk hkne hk64 hv hvne hv1200
      (by omega) huniq
    simpa [sanitizeLooseRecord] using h

set_option maxRecDepth 4000 in
/-- C7 witness: `{teamSize: "3-10", useCase: "acme"}` keeps `teamSize`
unchanged and drops the use-case key. -/
theorem additional_fields_sanitization_witness :
    ("teamSize", "3-10") ∈
      jsDeleteKey (sanitizeLooseRecord
        (some [("teamSize", .str "3-10"), ("useCase", .str "acme")])) "useCase" ∧
    (∀ kv ∈ jsDeleteKey (sanitizeLooseRecord
        (some [("teamSize", .str "3-10"), ("useCase", .str "acme")])) "useCase",
       kv.1 ≠ "useCase") ∧
    (jsDeleteKey (sanitizeLooseRecord
        (some [("teamSize", .str "3-10"), ("useCase", .str "acme")])) "useCase").length ≤ 24 :=
  ⟨(additional_fields_sanitization [("teamSize", .str "3-10"), ("useCase", .str "acme")]).2.2.2.2
     "teamSize" "3-10" (List.mem_cons_self _ _) (by decide) (by decide) (by decide) (by decide)
     (by decide) (by decide) (by decide) (by decide)
     (by
       intro p hp h
       rcases List.mem_cons.mp hp with h1 | h1
       · exact h1
       · rcases List.mem_cons.mp h1 with h2 | h2
         · rw [h2] at h
           exact absurd h (by decide)
         · simp at h2),
   (additional_fields_sanitization [("teamSize", .str "3-10"), ("useCase", .str "acme")]).2.2.1,
   (additional_fields_sanitization [("teamSize", .str "3-10"), ("useCase", .str "acme")]).1⟩
